import Mathlib

/-!
Verification of the PlayChaCha wallet-ledger / escrow-settlement core.

The definitions below are a shallow embedding of the repository's services:

* the wallet service (`services/walletService.js`): `getWallet`, `updateBalance`;
* the escrow service (`services/escrowService.js`): `createEscrow`,
  `releaseEscrow`, `createDispute`, `resolveDispute`;
* the betting service (`BettingService` in the services directory):
  `createBet`, `takeBet`, `settleBet`, `determineWinner`.

Monetary values are modelled as rationals.  Each JavaScript service call that
runs inside a sequelize transaction is modelled as a pure function returning
the observable database state together with an `Except` result; a thrown
error triggers `t.rollback()`, so on an error the returned state contains
none of the transactional writes.  `walletService.getWallet` is invoked by
the escrow service *without* the surrounding transaction, so wallet rows it
lazily creates survive a rollback; the embedding keeps that behaviour.
-/

namespace PlayChaCha

/-- Lookup in an association list keyed by numeric ids (a database table). -/
def afind {α : Type} : List (Nat × α) → Nat → Option α
  | [], _ => none
  | (k, v) :: tl, k' => if k = k' then some v else afind tl k'

/-- Row update in an association list; a missing key leaves the table unchanged. -/
def aset {α : Type} : List (Nat × α) → Nat → α → List (Nat × α)
  | [], _, _ => []
  | (k, v) :: tl, k', v' => if k = k' then (k, v') :: tl else (k, v) :: aset tl k' v'

theorem afind_aset_self {α : Type} (l : List (Nat × α)) (k : Nat) (v w : α)
    (h : afind l k = some w) : afind (aset l k v) k = some v := by
  induction l with
  | nil => simp [afind] at h
  | cons hd tl ih =>
    obtain ⟨k', v'⟩ := hd
    by_cases hk : k' = k
    · subst hk
      simp [afind, aset]
    · simp [afind, aset, hk] at h ⊢
      exact ih h

theorem afind_aset_ne {α : Type} (l : List (Nat × α)) (k k' : Nat) (v : α)
    (hne : k' ≠ k) : afind (aset l k v) k' = afind l k' := by
  induction l with
  | nil => simp [aset]
  | cons hd tl ih =>
    obtain ⟨k₀, v₀⟩ := hd
    by_cases hk : k₀ = k
    · subst hk
      simp [afind, aset, Ne.symm hne]
    · simp [afind, aset, hk]
      split <;> simp [ih]

theorem aset_of_afind_none {α : Type} (l : List (Nat × α)) (k : Nat) (v : α)
    (h : afind l k = none) : aset l k v = l := by
  induction l with
  | nil => rfl
  | cons hd tl ih =>
    obtain ⟨k₀, v₀⟩ := hd
    by_cases hk : k₀ = k
    · subst hk; simp [afind] at h
    · simp [afind, hk] at h
      simp [aset, hk, ih h]

theorem afind_aset_or {α : Type} (l : List (Nat × α)) (k k' : Nat) (v : α) (w : α)
    (h : afind (aset l k v) k' = some w) :
    (k' = k ∧ w = v) ∨ afind l k' = some w := by
  by_cases hk : k' = k
  · subst hk
    cases hfound : afind l k' with
    | none =>
      rw [aset_of_afind_none l k' v hfound, hfound] at h
      exact Option.noConfusion h
    | some u =>
      rw [afind_aset_self l k' v u hfound] at h
      exact Or.inl ⟨rfl, (Option.some_injective _ h).symm⟩
  · rw [afind_aset_ne l k k' v hk] at h
    exact Or.inr h

/-- Platform fee rate: `PLATFORM_FEE_PERCENT` from `config/stripe.js`
(`parseFloat(process.env.PLATFORM_FEE) || 0.03`), at its default of 3%.
`config/logger.js` exposes the identical `platformFee` constant used by the
betting service. -/
def PLATFORM_FEE_PERCENT : ℚ := 3 / 100

/-- Rounding to two decimal places, as the `DECIMAL(15,2)` columns of the
`escrows` table (`models/Escrow.js`) store `amount` and `platform_fee`. -/
def round2 (x : ℚ) : ℚ := ((round (x * 100) : ℤ) : ℚ) / 100

/-- A rational that is representable with two decimal places, i.e. a value a
`DECIMAL(15,2)` column can hold exactly. -/
def Is2dp (x : ℚ) : Prop := ∃ n : ℤ, x = (n : ℚ) / 100

theorem round2_of_Is2dp {x : ℚ} (h : Is2dp x) : round2 x = x := by
  obtain ⟨n, rfl⟩ := h
  unfold round2
  rw [div_mul_cancel₀ _ (by norm_num : (100 : ℚ) ≠ 0)]
  norm_num

theorem Is2dp_two_mul {x : ℚ} (h : Is2dp x) : Is2dp (2 * x) := by
  obtain ⟨n, rfl⟩ := h
  exact ⟨2 * n, by push_cast; ring⟩

/-- Escrow lifecycle statuses.  The `escrows` table enumerates
`active/completed/disputed/refunded/cancelled`; the betting service
additionally writes `held` and `released` to its escrow rows. -/
inductive EscrowStatus
  | active | completed | disputed | refunded | cancelled | held | released
deriving DecidableEq

inductive WalletStatus
  | active | suspended | closed
deriving DecidableEq

inductive TxType
  | deposit | withdrawal | bet | win | fee | refund
deriving DecidableEq

inductive TxStatus
  | pending | completed | failed | cancelled
deriving DecidableEq

inductive Role
  | creator | taker
deriving DecidableEq

inductive MatchStatus
  | pending | active | settled | cancelled | disputed
deriving DecidableEq

inductive PayoutStatus
  | pending | completed | failed
deriving DecidableEq

/-- Business errors thrown by the wallet and escrow services (each `throw new
Error(...)` message in the source becomes one constructor). -/
inductive Err
  | betMatchNotFound
  | betNotFound
  | escrowAlreadyExists
  | creatorInsufficientFunds
  | takerInsufficientFunds
  | escrowNotFound
  | escrowNotActive
  | winnerNotParty
  | userNotParty
  | escrowNotDisputed
  | walletNotFound
  | walletInactive
  | insufficientFunds
deriving DecidableEq

/-- A wallet row (`models/Wallet.js`): one wallet per user for the fixed USD
currency, so the store is keyed by `user_id`. -/
structure Wallet where
  balance : ℚ
  status : WalletStatus
deriving DecidableEq

/-- A transaction row: the fields the escrow and wallet services write
(`wallet_id`, signed `amount`, `type`, `status`, `reference_id` carrying the
escrow id, and the `role` tag from the metadata blob). -/
structure Txn where
  wallet_id : Nat
  amount : ℚ
  type : TxType
  status : TxStatus
  reference_id : Nat
  role : Option Role
deriving DecidableEq

/-- An escrow row (`models/Escrow.js`). `released_at` keeps only whether the
timestamp has been set. -/
structure Escrow where
  bet_match_id : Nat
  amount : ℚ
  platform_fee : ℚ
  status : EscrowStatus
  winner_id : Option Nat
  dispute_reason : Option String
  resolved_by : Option Nat
  resolution_notes : Option String
  released_at : Bool
deriving DecidableEq

/-- A bet-match row as used by the escrow service. -/
structure BetMatch where
  bet_id : Nat
  taker_id : Nat
  status : MatchStatus
  winner_id : Option Nat
  escrow_created_at : Bool
  settled_at : Bool
  cancelled_at : Bool
deriving DecidableEq

/-- A bet row as used by the escrow service: `bet.amount` is the creator's
stake and `bet.creator_id` the creator. -/
structure Bet where
  creator_id : Nat
  amount : ℚ
deriving DecidableEq

/-- A payout row (`models/Payout.js` fields written by the escrow service). -/
structure Payout where
  user_id : Nat
  escrow_id : Nat
  amount : ℚ
  status : PayoutStatus
deriving DecidableEq

/-- The relational store behind the wallet ledger and escrow engine.  Tables
are association lists keyed by row id; wallets are keyed by `user_id` (one
wallet per user).  `nextEscrowId` supplies fresh escrow ids. -/
structure St where
  wallets : List (Nat × Wallet)
  transactions : List Txn
  escrows : List (Nat × Escrow)
  betMatches : List (Nat × BetMatch)
  bets : List (Nat × Bet)
  payouts : List Payout
  nextEscrowId : Nat
deriving DecidableEq

/-- The wallet `walletService.getWallet(userId)` returns: the existing row, or
the fresh zero-balance active wallet `createWallet` makes when none exists. -/
def getWalletW (st : St) (userId : Nat) : Wallet :=
  match afind st.wallets userId with
  | some w => w
  | none => { balance := 0, status := .active }

/-- The persistent effect of `walletService.getWallet(userId)`: when no wallet
row exists, `createWallet` inserts a zero-balance active wallet.  The escrow
service calls `getWallet` without passing its transaction, so this insert is
not undone by a rollback. -/
def getWalletSt (st : St) (userId : Nat) : St :=
  match afind st.wallets userId with
  | some _ => st
  | none => { st with wallets := (userId, { balance := 0, status := .active }) :: st.wallets }

/-- The spendable balance visible for a user (0 when no wallet row exists,
matching the zero balance a lazily created wallet would carry). -/
def walletBalance (st : St) (userId : Nat) : ℚ :=
  match afind st.wallets userId with
  | some w => w.balance
  | none => 0

/-- `walletService.updateBalance(walletId, amount, transaction)`: fails when
the wallet is missing or not active, fails with insufficient funds when the
resulting balance would be negative, and otherwise stores
`balance + amount`. -/
def updateBalance (st : St) (walletId : Nat) (amount : ℚ) : Except Err St :=
  match afind st.wallets walletId with
  | none => .error .walletNotFound
  | some wallet =>
    if wallet.status ≠ .active then .error .walletInactive
    else if wallet.balance + amount < 0 then .error .insufficientFunds
    else .ok { st with
      wallets := aset st.wallets walletId { wallet with balance := wallet.balance + amount } }

/-- `escrowService.createEscrow(betMatchId)`.  All writes run in one sequelize
transaction except the wallet rows `getWallet` may lazily create; an error
rolls the transaction back, so the returned state then carries only those
lazily created wallets.  The JavaScript inserts the escrow row before reading
the wallets; the tables are disjoint, so the embedding groups the
transactional writes after the balance checks with the same visible effect. -/
def createEscrow (st : St) (betMatchId : Nat) : St × Except Err Nat :=
  match afind st.betMatches betMatchId with
  | none => (st, .error .betMatchNotFound)
  | some betMatch =>
  match afind st.bets betMatch.bet_id with
  | none => (st, .error .betNotFound)
  | some bet =>
  if st.escrows.any (fun p => decide (p.2.bet_match_id = betMatchId)) then
    (st, .error .escrowAlreadyExists)
  else
    -- amount = parseFloat(betMatch.bet.amount) * 2, both sides of the bet;
    -- the DECIMAL(15,2) escrow columns store the rounded values.
    let amount := round2 (bet.amount * 2)
    let platformFee := round2 (bet.amount * 2 * PLATFORM_FEE_PERCENT)
    let eid := st.nextEscrowId
    let stBase := getWalletSt (getWalletSt st bet.creator_id) betMatch.taker_id
    let creatorWallet := getWalletW st bet.creator_id
    let takerWallet := getWalletW (getWalletSt st bet.creator_id) betMatch.taker_id
    if creatorWallet.balance < bet.amount then (stBase, .error .creatorInsufficientFunds)
    else if takerWallet.balance < bet.amount then (stBase, .error .takerInsufficientFunds)
    else
      let escrow : Escrow :=
        { bet_match_id := betMatchId, amount := amount, platform_fee := platformFee,
          status := .active, winner_id := none, dispute_reason := none,
          resolved_by := none, resolution_notes := none, released_at := false }
      let creatorTxn : Txn :=
        { wallet_id := bet.creator_id, amount := -bet.amount, type := .bet,
          status := .completed, reference_id := eid, role := some .creator }
      let takerTxn : Txn :=
        { wallet_id := betMatch.taker_id, amount := -bet.amount, type := .bet,
          status := .completed, reference_id := eid, role := some .taker }
      let st1 : St := { stBase with
        escrows := (eid, escrow) :: stBase.escrows,
        nextEscrowId := eid + 1,
        transactions := stBase.transactions ++ [creatorTxn, takerTxn] }
      match updateBalance st1 bet.creator_id (-bet.amount) with
      | .error e => (stBase, .error e)
      | .ok st2 =>
      match updateBalance st2 betMatch.taker_id (-bet.amount) with
      | .error e => (stBase, .error e)
      | .ok st3 =>
        let betMatch' : BetMatch :=
          { betMatch with status := .active, escrow_created_at := true }
        ({ st3 with betMatches := aset st3.betMatches betMatchId betMatch' }, .ok eid)

/-- `escrowService.releaseEscrow(escrowId, winnerId)`: pays the escrow amount
minus the stored platform fee to the winner, who must be a party of the
match; all writes run in one transaction, with `getWallet`'s lazy wallet
insert again outside it. -/
def releaseEscrow (st : St) (escrowId winnerId : Nat) : St × Except Err Nat :=
  match afind st.escrows escrowId with
  | none => (st, .error .escrowNotFound)
  | some escrow =>
  if escrow.status ≠ .active then (st, .error .escrowNotActive)
  else
  match afind st.betMatches escrow.bet_match_id with
  | none => (st, .error .betMatchNotFound)
  | some betMatch =>
  match afind st.bets betMatch.bet_id with
  | none => (st, .error .betNotFound)
  | some bet =>
  if winnerId ≠ bet.creator_id ∧ winnerId ≠ betMatch.taker_id then
    (st, .error .winnerNotParty)
  else
    let winnings := escrow.amount - escrow.platform_fee
    let stBase := getWalletSt st winnerId
    let txn : Txn :=
      { wallet_id := winnerId, amount := winnings, type := .win,
        status := .completed, reference_id := escrowId, role := none }
    let st1 : St := { stBase with transactions := stBase.transactions ++ [txn] }
    match updateBalance st1 winnerId winnings with
    | .error e => (stBase, .error e)
    | .ok st2 =>
      let payout : Payout :=
        { user_id := winnerId, escrow_id := escrowId, amount := winnings,
          status := .completed }
      let escrow' : Escrow :=
        { escrow with
          status := .completed, winner_id := some winnerId, released_at := true }
      let betMatch' : BetMatch :=
        { betMatch with
          status := .settled, winner_id := some winnerId, settled_at := true }
      ({ st2 with
          payouts := st2.payouts ++ [payout],
          escrows := aset st2.escrows escrowId escrow',
          betMatches := aset st2.betMatches escrow.bet_match_id betMatch' },
       .ok escrowId)

/-- `escrowService.createDispute(escrowId, userId, reason)`: marks an active
escrow and its bet match disputed after checking the caller is a party.  The
source performs no sequelize transaction here, but every check precedes every
write, so an error leaves the state untouched. -/
def createDispute (st : St) (escrowId userId : Nat) (reason : String) :
    St × Except Err Nat :=
  match afind st.escrows escrowId with
  | none => (st, .error .escrowNotFound)
  | some escrow =>
  if escrow.status ≠ .active then (st, .error .escrowNotActive)
  else
  match afind st.betMatches escrow.bet_match_id with
  | none => (st, .error .betMatchNotFound)
  | some betMatch =>
  match afind st.bets betMatch.bet_id with
  | none => (st, .error .betNotFound)
  | some bet =>
  if userId ≠ bet.creator_id ∧ userId ≠ betMatch.taker_id then
    (st, .error .userNotParty)
  else
    let escrow' : Escrow :=
      { escrow with status := .disputed, dispute_reason := some reason }
    let betMatch' : BetMatch := { betMatch with status := .disputed }
    ({ st with
        escrows := aset st.escrows escrowId escrow',
        betMatches := aset st.betMatches escrow.bet_match_id betMatch' },
     .ok escrowId)

/-- `escrowService.resolveDispute(escrowId, winnerId, adminId, notes)`: only
legal on a disputed escrow.  With a winner it stamps the resolution fields and
then performs the same release as `releaseEscrow` — the source never checks
that `winnerId` is a party.  With `winnerId` null it refunds
`escrow.amount / 2` to each party and marks the escrow refunded and the bet
match cancelled. -/
def resolveDispute (st : St) (escrowId : Nat) (winnerId : Option Nat)
    (adminId : Nat) (notes : String) : St × Except Err Nat :=
  match afind st.escrows escrowId with
  | none => (st, .error .escrowNotFound)
  | some escrow =>
  if escrow.status ≠ .disputed then (st, .error .escrowNotDisputed)
  else
  match afind st.betMatches escrow.bet_match_id with
  | none => (st, .error .betMatchNotFound)
  | some betMatch =>
  match afind st.bets betMatch.bet_id with
  | none => (st, .error .betNotFound)
  | some bet =>
  match winnerId with
  | some winner =>
    let winnings := escrow.amount - escrow.platform_fee
    let stBase := getWalletSt st winner
    let txn : Txn :=
      { wallet_id := winner, amount := winnings, type := .win,
        status := .completed, reference_id := escrowId, role := none }
    let st1 : St := { stBase with transactions := stBase.transactions ++ [txn] }
    match updateBalance st1 winner winnings with
    | .error e => (stBase, .error e)
    | .ok st2 =>
      let payout : Payout :=
        { user_id := winner, escrow_id := escrowId, amount := winnings,
          status := .completed }
      let escrow' : Escrow :=
        { escrow with
          status := .completed, winner_id := some winner, released_at := true,
          resolved_by := some adminId, resolution_notes := some notes }
      let betMatch' : BetMatch :=
        { betMatch with
          status := .settled, winner_id := some winner, settled_at := true }
      ({ st2 with
          payouts := st2.payouts ++ [payout],
          escrows := aset st2.escrows escrowId escrow',
          betMatches := aset st2.betMatches escrow.bet_match_id betMatch' },
       .ok escrowId)
  | none =>
    -- Refund both parties: betAmount = parseFloat(escrow.amount) / 2.
    let betAmount := escrow.amount / 2
    let stBase := getWalletSt (getWalletSt st bet.creator_id) betMatch.taker_id
    let creatorTxn : Txn :=
      { wallet_id := bet.creator_id, amount := betAmount, type := .refund,
        status := .completed, reference_id := escrowId, role := some .creator }
    let takerTxn : Txn :=
      { wallet_id := betMatch.taker_id, amount := betAmount, type := .refund,
        status := .completed, reference_id := escrowId, role := some .taker }
    let st1 : St := { stBase with
      transactions := stBase.transactions ++ [creatorTxn, takerTxn] }
    match updateBalance st1 bet.creator_id betAmount with
    | .error e => (stBase, .error e)
    | .ok st2 =>
    match updateBalance st2 betMatch.taker_id betAmount with
    | .error e => (stBase, .error e)
    | .ok st3 =>
      let escrow' : Escrow :=
        { escrow with
          status := .refunded, released_at := true,
          resolved_by := some adminId, resolution_notes := some notes }
      let betMatch' : BetMatch :=
        { betMatch with status := .cancelled, cancelled_at := true }
      ({ st3 with
          escrows := aset st3.escrows escrowId escrow',
          betMatches := aset st3.betMatches escrow.bet_match_id betMatch' },
       .ok escrowId)

/-- The escrow-engine operations a caller can request. -/
inductive Op
  | createEscrow (betMatchId : Nat)
  | release (escrowId winnerId : Nat)
  | openDispute (escrowId userId : Nat) (reason : String)
  | resolveDispute (escrowId : Nat) (winnerId : Option Nat) (adminId : Nat) (notes : String)

/-- Observable state after one requested operation (the rollback state when
the operation fails). -/
def stepOp (st : St) : Op → St
  | .createEscrow bmId => (createEscrow st bmId).1
  | .release eid wid => (releaseEscrow st eid wid).1
  | .openDispute eid uid reason => (createDispute st eid uid reason).1
  | .resolveDispute eid w a n => (resolveDispute st eid w a n).1

/-- Observable state after a sequence of requested operations. -/
def runOps (st : St) (ops : List Op) : St := ops.foldl stepOp st

/-- Sum of the debits recorded into an escrow: the `bet`-typed transactions
tagged with its id (each stores a negative amount). -/
def txDebits (l : List Txn) (eid : Nat) : ℚ :=
  ((l.filter (fun t => decide (t.type = .bet) && decide (t.reference_id = eid))).map
    (fun t => -t.amount)).sum

/-- Sum of the credits recorded out of an escrow: the `win`, `refund` and
`fee`-typed transactions tagged with its id. -/
def txCredits (l : List Txn) (eid : Nat) : ℚ :=
  ((l.filter (fun t =>
      (decide (t.type = .win) || decide (t.type = .refund) || decide (t.type = .fee))
        && decide (t.reference_id = eid))).map (fun t => t.amount)).sum

def escrowDebits (st : St) (eid : Nat) : ℚ := txDebits st.transactions eid

def escrowCredits (st : St) (eid : Nat) : ℚ := txCredits st.transactions eid

namespace Betting

/-!
Embedding of the `BettingService` class: `createBet`, `takeBet`, `settleBet`
and the pure `determineWinner`.  This service keeps its own schema: bets carry
stake/odds/potential payout, its escrow rows carry `creator_amount` and
`taker_amount` and use the `held`/`released` statuses, and wallets are plain
balances mutated with `increment`/`decrement`.  Times (`event.start_time` and
`new Date()`) are modelled as naturals, with the current time in the state.
-/

inductive BetType
  | moneyline | spread | over_under | prop
deriving DecidableEq

/-- The `bet_details` JSON blob: the fields `determineWinner` reads. -/
structure BetDetails where
  pick : String
  spread : ℚ
  total : ℚ
deriving DecidableEq

inductive BetStatus
  | open_ | matched | settled | cancelled
deriving DecidableEq

structure BWallet where
  balance : ℚ
deriving DecidableEq

structure Event where
  start_time : Nat
deriving DecidableEq

/-- A bet-match row of the betting service. -/
structure BetMatch where
  bet_id : Nat
  taker_id : Nat
  stake_amount : ℚ
  potential_payout : ℚ
  platform_fee : ℚ
  escrow_id : Nat
  status : MatchStatus
deriving DecidableEq

/-- A bet row of the betting service.  `matches` models the `matches`
association as loaded on the object: rows read without including it carry
`[]`, exactly as `bet.matches` is undefined on such instances. -/
structure Bet where
  creator_id : Nat
  event_id : Nat
  bet_type : BetType
  bet_details : BetDetails
  odds : ℚ
  stake_amount : ℚ
  potential_payout : ℚ
  status : BetStatus
  expiry_time : Nat
  matches_ : List BetMatch
deriving DecidableEq

/-- An escrow row as written by the betting service. -/
structure Escrow where
  creator_amount : ℚ
  taker_amount : ℚ
  platform_fee : ℚ
  status : EscrowStatus
  winner_id : Option Nat
  bet_match_id : Option Nat
  released_at : Bool
deriving DecidableEq

/-- A transaction row as written by the betting service. -/
structure Txn where
  user_id : Nat
  wallet_id : Nat
  amount : ℚ
  transaction_type : String
  status : TxStatus
  reference_id : Nat
deriving DecidableEq

/-- Final score supplied by the settlement trigger. -/
structure EventResult where
  home_score : ℚ
  away_score : ℚ
deriving DecidableEq

inductive BErr
  | walletNotFound
  | insufficientBalance
  | eventNotFound
  | eventStarted
  | betNotFound
  | betNotOpen
  | selfMatch
  | betMatchNotFound
  | betMatchNotActive
  | escrowNotFound
  | escrowNotHeld
  | determineWinnerFailed
  | winnerWalletNotFound
deriving DecidableEq

/-- The betting service's store; wallets again keyed by `user_id`, `now` the
current clock, `nextId` the id supply for created rows. -/
structure BState where
  wallets : List (Nat × BWallet)
  events : List (Nat × Event)
  bets : List (Nat × Bet)
  betMatches : List (Nat × BetMatch)
  escrows : List (Nat × Escrow)
  transactions : List Txn
  now : Nat
  nextId : Nat
deriving DecidableEq

/-- Input to `createBet` (`betData`). -/
structure BetData where
  event_id : Nat
  bet_type : BetType
  bet_details : BetDetails
  odds : ℚ
  stake_amount : ℚ
  expiry_time : Option Nat
deriving DecidableEq

def bWalletBalance (st : BState) (userId : Nat) : ℚ :=
  match afind st.wallets userId with
  | some w => w.balance
  | none => 0

/-- `BettingService.createBet(userId, betData)`: checks wallet, balance,
event and start time, then creates the bet, records a `bet_place`
transaction of `-stake_amount`, and decrements the creator's wallet
balance by the stake — all inside one transaction. -/
def createBet (st : BState) (userId : Nat) (betData : BetData) :
    BState × Except BErr Nat :=
  match afind st.wallets userId with
  | none => (st, .error .walletNotFound)
  | some wallet =>
  if wallet.balance < betData.stake_amount then (st, .error .insufficientBalance)
  else
  match afind st.events betData.event_id with
  | none => (st, .error .eventNotFound)
  | some event =>
  if event.start_time ≤ st.now then (st, .error .eventStarted)
  else
    let potentialPayout := betData.stake_amount * betData.odds
    let bid := st.nextId
    let bet : Bet :=
      { creator_id := userId, event_id := betData.event_id,
        bet_type := betData.bet_type, bet_details := betData.bet_details,
        odds := betData.odds, stake_amount := betData.stake_amount,
        potential_payout := potentialPayout, status := .open_,
        expiry_time := betData.expiry_time.getD event.start_time, matches_ := [] }
    let txn : Txn :=
      { user_id := userId, wallet_id := userId, amount := -betData.stake_amount,
        transaction_type := "bet_place", status := .completed, reference_id := bid }
    (({ st with
        bets := (bid, bet) :: st.bets,
        transactions := st.transactions ++ [txn],
        wallets := aset st.wallets userId { balance := wallet.balance - betData.stake_amount },
        nextId := bid + 1 }),
     .ok bid)

/-- `BettingService.takeBet(userId, betId)`: validates the bet is open, the
event has not started and the taker is not the creator, computes
`requiredStake = potential_payout - stake_amount`, creates the `held` escrow
and the bet match, marks the bet matched, records a `bet_place` transaction of
`-requiredStake`, and decrements the taker's wallet. -/
def takeBet (st : BState) (userId : Nat) (betId : Nat) :
    BState × Except BErr (Nat × Nat) :=
  match afind st.bets betId with
  | none => (st, .error .betNotFound)
  | some bet =>
  if bet.status ≠ .open_ then (st, .error .betNotOpen)
  else
  match afind st.events bet.event_id with
  | none => (st, .error .eventNotFound)
  | some event =>
  if event.start_time ≤ st.now then (st, .error .eventStarted)
  else if bet.creator_id = userId then (st, .error .selfMatch)
  else
  match afind st.wallets userId with
  | none => (st, .error .walletNotFound)
  | some wallet =>
  let requiredStake := bet.potential_payout - bet.stake_amount
  if wallet.balance < requiredStake then (st, .error .insufficientBalance)
  else
    let totalPot := bet.stake_amount + requiredStake
    let platformFee := totalPot * PLATFORM_FEE_PERCENT
    let escrowId := st.nextId
    let betMatchId := st.nextId + 1
    let escrow : Escrow :=
      { creator_amount := bet.stake_amount, taker_amount := requiredStake,
        platform_fee := platformFee, status := .held, winner_id := none,
        bet_match_id := some betMatchId, released_at := false }
    let betMatch : BetMatch :=
      { bet_id := betId, taker_id := userId, stake_amount := requiredStake,
        potential_payout := totalPot - platformFee, platform_fee := platformFee,
        escrow_id := escrowId, status := .active }
    let txn : Txn :=
      { user_id := userId, wallet_id := userId, amount := -requiredStake,
        transaction_type := "bet_place", status := .completed,
        reference_id := betMatchId }
    (({ st with
        escrows := (escrowId, escrow) :: st.escrows,
        betMatches := (betMatchId, betMatch) :: st.betMatches,
        bets := aset st.bets betId { bet with status := .matched },
        transactions := st.transactions ++ [txn],
        wallets := aset st.wallets userId { balance := wallet.balance - requiredStake },
        nextId := st.nextId + 2 }),
     .ok (betMatchId, escrowId))

/-- `BettingService.determineWinner(bet, eventResult)`: pure winner selection
by bet type.  The taker id is read from `bet.matches[0]`, so a bet loaded
without its `matches` association makes the read fail. -/
def determineWinner (bet : Bet) (eventResult : EventResult) : Except String Nat :=
  match bet.matches_ with
  | [] => .error "bet.matches is not loaded"
  | m :: _ =>
    match bet.bet_type with
    | .moneyline =>
      if bet.bet_details.pick = "home" then
        .ok (if eventResult.home_score > eventResult.away_score then bet.creator_id else m.taker_id)
      else
        .ok (if eventResult.away_score > eventResult.home_score then bet.creator_id else m.taker_id)
    | .spread =>
      if bet.bet_details.pick = "home" then
        .ok (if eventResult.home_score + bet.bet_details.spread > eventResult.away_score
          then bet.creator_id else m.taker_id)
      else
        .ok (if eventResult.home_score + bet.bet_details.spread < eventResult.away_score
          then bet.creator_id else m.taker_id)
    | .over_under =>
      if bet.bet_details.pick = "over" then
        .ok (if eventResult.home_score + eventResult.away_score > bet.bet_details.total
          then bet.creator_id else m.taker_id)
      else
        .ok (if eventResult.home_score + eventResult.away_score < bet.bet_details.total
          then bet.creator_id else m.taker_id)
    | .prop =>
      -- Prop settlement is a placeholder returning the creator.
      .ok bet.creator_id

/-- `BettingService.settleBet(betMatchId, eventResult)`: requires the match
active and its escrow `held`, determines the winner, then releases the pot
minus the platform fee to the winner's wallet, recording a `bet_win` and a
`fee` transaction.  The bet is loaded without its `matches` association. -/
def settleBet (st : BState) (betMatchId : Nat) (eventResult : EventResult) :
    BState × Except BErr (Nat × ℚ) :=
  match afind st.betMatches betMatchId with
  | none => (st, .error .betMatchNotFound)
  | some betMatch =>
  if betMatch.status ≠ .active then (st, .error .betMatchNotActive)
  else
  match afind st.escrows betMatch.escrow_id with
  | none => (st, .error .escrowNotFound)
  | some escrow =>
  if escrow.status ≠ .held then (st, .error .escrowNotHeld)
  else
  match afind st.bets betMatch.bet_id with
  | none => (st, .error .betNotFound)
  | some bet =>
  match determineWinner { bet with matches_ := [] } eventResult with
  | .error _ => (st, .error .determineWinnerFailed)
  | .ok winnerId =>
  match afind st.wallets winnerId with
  | none => (st, .error .winnerWalletNotFound)
  | some winnerWallet =>
    let totalPot := escrow.creator_amount + escrow.taker_amount
    let winnings := totalPot - escrow.platform_fee
    let escrow' : Escrow :=
      { escrow with status := .released, winner_id := some winnerId, released_at := true }
    let betMatch' : BetMatch := { betMatch with status := .settled }
    let winTxn : Txn :=
      { user_id := winnerId, wallet_id := winnerId, amount := winnings,
        transaction_type := "bet_win", status := .completed, reference_id := betMatchId }
    let feeTxn : Txn :=
      { user_id := winnerId, wallet_id := winnerId, amount := -escrow.platform_fee,
        transaction_type := "fee", status := .completed, reference_id := betMatchId }
    (({ st with
        escrows := aset st.escrows betMatch.escrow_id escrow',
        betMatches := aset st.betMatches betMatchId betMatch',
        transactions := st.transactions ++ [winTxn, feeTxn],
        wallets := aset st.wallets winnerId { balance := winnerWallet.balance + winnings } }),
     .ok (winnerId, winnings))

end Betting

/-!  Basic facts about the wallet-ledger primitives.  -/

theorem getWalletSt_transactions (st : St) (u : Nat) :
    (getWalletSt st u).transactions = st.transactions := by
  unfold getWalletSt; split <;> rfl

theorem getWalletSt_escrows (st : St) (u : Nat) :
    (getWalletSt st u).escrows = st.escrows := by
  unfold getWalletSt; split <;> rfl

theorem getWalletSt_betMatches (st : St) (u : Nat) :
    (getWalletSt st u).betMatches = st.betMatches := by
  unfold getWalletSt; split <;> rfl

theorem getWalletSt_bets (st : St) (u : Nat) :
    (getWalletSt st u).bets = st.bets := by
  unfold getWalletSt; split <;> rfl

theorem getWalletSt_payouts (st : St) (u : Nat) :
    (getWalletSt st u).payouts = st.payouts := by
  unfold getWalletSt; split <;> rfl

theorem getWalletSt_nextEscrowId (st : St) (u : Nat) :
    (getWalletSt st u).nextEscrowId = st.nextEscrowId := by
  unfold getWalletSt; split <;> rfl

/-- The lazily created wallet row carries a zero balance, so `getWallet`
leaves every user's spendable balance unchanged. -/
theorem walletBalance_getWalletSt (st : St) (u v : Nat) :
    walletBalance (getWalletSt st u) v = walletBalance st v := by
  unfold getWalletSt
  cases h : afind st.wallets u with
  | some w => rfl
  | none =>
    unfold walletBalance
    by_cases hv : u = v
    · subst hv
      simp [afind, h]
    · simp [afind, hv]

/-- The wallet `getWallet` returns is the row visible in the state it leaves
behind. -/
theorem getWalletW_after (st : St) (u : Nat) :
    afind (getWalletSt st u).wallets u = some (getWalletW st u) := by
  unfold getWalletSt getWalletW
  split <;> rename_i h
  · exact h
  · simp [afind]

theorem getWalletW_balance (st : St) (u : Nat) :
    (getWalletW st u).balance = walletBalance st u := by
  unfold getWalletW walletBalance
  split <;> rfl

/-- Inversion for a successful `updateBalance`: the wallet existed, was
active, the resulting balance is non-negative, and only that wallet row
changed. -/
theorem updateBalance_ok {st : St} {wid : Nat} {amt : ℚ} {st' : St}
    (h : updateBalance st wid amt = .ok st') :
    ∃ w, afind st.wallets wid = some w ∧ w.status = WalletStatus.active ∧
      ¬ w.balance + amt < 0 ∧
      st' = { st with
        wallets := aset st.wallets wid { w with balance := w.balance + amt } } := by
  unfold updateBalance at h
  split at h
  · exact Except.noConfusion h
  · rename_i w hw
    split at h
    · exact Except.noConfusion h
    · split at h
      · exact Except.noConfusion h
      · rename_i hstat hneg
        refine ⟨w, hw, ?_, hneg, ?_⟩
        · by_contra hne
          exact hstat hne
        · exact (Except.ok.injEq _ _).mp h.symm |>.symm ▸ rfl

theorem updateBalance_ok_balance_self {st : St} {wid : Nat} {amt : ℚ} {st' : St}
    (h : updateBalance st wid amt = .ok st') :
    walletBalance st' wid = walletBalance st wid + amt := by
  obtain ⟨w, hw, -, -, rfl⟩ := updateBalance_ok h
  unfold walletBalance
  rw [show ({ st with wallets := aset st.wallets wid { w with balance := w.balance + amt } } : St).wallets
      = aset st.wallets wid { w with balance := w.balance + amt } from rfl,
    afind_aset_self _ _ _ _ hw, hw]

theorem updateBalance_ok_balance_other {st : St} {wid : Nat} {amt : ℚ} {st' : St}
    (h : updateBalance st wid amt = .ok st') (v : Nat) (hv : v ≠ wid) :
    walletBalance st' v = walletBalance st v := by
  obtain ⟨w, hw, -, -, rfl⟩ := updateBalance_ok h
  unfold walletBalance
  rw [show ({ st with wallets := aset st.wallets wid { w with balance := w.balance + amt } } : St).wallets
      = aset st.wallets wid { w with balance := w.balance + amt } from rfl,
    afind_aset_ne _ _ _ _ hv]

/-!  Splitting the per-escrow ledger sums over appended transactions.  -/

theorem txDebits_append (l₁ l₂ : List Txn) (eid : Nat) :
    txDebits (l₁ ++ l₂) eid = txDebits l₁ eid + txDebits l₂ eid := by
  unfold txDebits
  rw [List.filter_append, List.map_append, List.sum_append]

theorem txCredits_append (l₁ l₂ : List Txn) (eid : Nat) :
    txCredits (l₁ ++ l₂) eid = txCredits l₁ eid + txCredits l₂ eid := by
  unfold txCredits
  rw [List.filter_append, List.map_append, List.sum_append]

theorem txDebits_zero_of_fresh (l : List Txn) (eid : Nat)
    (h : ∀ t ∈ l, t.reference_id ≠ eid) : txDebits l eid = 0 := by
  unfold txDebits
  have : l.filter (fun t => decide (t.type = .bet) && decide (t.reference_id = eid)) = [] := by
    rw [List.filter_eq_nil_iff]
    intro t ht
    simp [h t ht]
  rw [this]; rfl

theorem txCredits_zero_of_fresh (l : List Txn) (eid : Nat)
    (h : ∀ t ∈ l, t.reference_id ≠ eid) : txCredits l eid = 0 := by
  unfold txCredits
  have : l.filter (fun t =>
      (decide (t.type = .win) || decide (t.type = .refund) || decide (t.type = .fee))
        && decide (t.reference_id = eid)) = [] := by
    rw [List.filter_eq_nil_iff]
    intro t ht
    simp [h t ht]
  rw [this]; rfl

/-!  Atomicity: what a failed escrow operation leaves behind.  -/

/-- Everything a failed operation must have left untouched: all rows of the
transactional tables and every user's spendable balance (the rows `getWallet`
may lazily create outside the transaction carry a zero balance, so balances
are preserved even then). -/
def UnchangedCore (st st' : St) : Prop :=
  st'.transactions = st.transactions ∧ st'.escrows = st.escrows ∧
  st'.betMatches = st.betMatches ∧ st'.bets = st.bets ∧
  st'.payouts = st.payouts ∧ st'.nextEscrowId = st.nextEscrowId ∧
  ∀ u, walletBalance st' u = walletBalance st u

theorem unchangedCore_refl (st : St) : UnchangedCore st st :=
  ⟨rfl, rfl, rfl, rfl, rfl, rfl, fun _ => rfl⟩

theorem unchangedCore_getWalletSt (st : St) (u : Nat) :
    UnchangedCore st (getWalletSt st u) := by
  refine ⟨?_, ?_, ?_, ?_, ?_, ?_, ?_⟩ <;>
    simp [getWalletSt_transactions, getWalletSt_escrows, getWalletSt_betMatches,
      getWalletSt_bets, getWalletSt_payouts, getWalletSt_nextEscrowId,
      walletBalance_getWalletSt]

theorem unchangedCore_getWalletSt2 (st : St) (u v : Nat) :
    UnchangedCore st (getWalletSt (getWalletSt st u) v) := by
  refine ⟨?_, ?_, ?_, ?_, ?_, ?_, ?_⟩ <;>
    simp [getWalletSt_transactions, getWalletSt_escrows, getWalletSt_betMatches,
      getWalletSt_bets, getWalletSt_payouts, getWalletSt_nextEscrowId,
      walletBalance_getWalletSt]

theorem createEscrow_error_unchanged (st : St) (bmId : Nat) (st' : St) (e : Err)
    (h : createEscrow st bmId = (st', .error e)) : UnchangedCore st st' := by
  unfold createEscrow at h
  split at h
  · cases h; exact unchangedCore_refl st
  · split at h
    · cases h; exact unchangedCore_refl st
    · split at h
      · cases h; exact unchangedCore_refl st
      · dsimp only at h
        split at h
        · cases h; exact unchangedCore_getWalletSt2 st _ _
        · split at h
          · cases h; exact unchangedCore_getWalletSt2 st _ _
          · split at h
            · cases h; exact unchangedCore_getWalletSt2 st _ _
            · split at h
              · cases h; exact unchangedCore_getWalletSt2 st _ _
              · simp at h

theorem releaseEscrow_error_unchanged (st : St) (eid wid : Nat) (st' : St) (e : Err)
    (h : releaseEscrow st eid wid = (st', .error e)) : UnchangedCore st st' := by
  unfold releaseEscrow at h
  split at h
  · cases h; exact unchangedCore_refl st
  · split at h
    · cases h; exact unchangedCore_refl st
    · split at h
      · cases h; exact unchangedCore_refl st
      · split at h
        · cases h; exact unchangedCore_refl st
        · split at h
          · cases h; exact unchangedCore_refl st
          · dsimp only at h
            split at h
            · cases h; exact unchangedCore_getWalletSt st _
            · simp at h

theorem createDispute_error_unchanged (st : St) (eid uid : Nat) (r : String)
    (st' : St) (e : Err)
    (h : createDispute st eid uid r = (st', .error e)) : UnchangedCore st st' := by
  unfold createDispute at h
  split at h
  · cases h; exact unchangedCore_refl st
  · split at h
    · cases h; exact unchangedCore_refl st
    · split at h
      · cases h; exact unchangedCore_refl st
      · split at h
        · cases h; exact unchangedCore_refl st
        · split at h
          · cases h; exact unchangedCore_refl st
          · simp at h

theorem resolveDispute_error_unchanged (st : St) (eid : Nat) (w : Option Nat)
    (a : Nat) (n : String) (st' : St) (e : Err)
    (h : resolveDispute st eid w a n = (st', .error e)) : UnchangedCore st st' := by
  unfold resolveDispute at h
  split at h
  · cases h; exact unchangedCore_refl st
  · split at h
    · cases h; exact unchangedCore_refl st
    · split at h
      · cases h; exact unchangedCore_refl st
      · split at h
        · cases h; exact unchangedCore_refl st
        · split at h
          · dsimp only at h
            split at h
            · cases h; exact unchangedCore_getWalletSt st _
            · simp at h
          · dsimp only at h
            split at h
            · cases h; exact unchangedCore_getWalletSt2 st _ _
            · split at h
              · cases h; exact unchangedCore_getWalletSt2 st _ _
              · simp at h


theorem createEscrow_ok (st : St) (bmId : Nat) (st' : St) (eid : Nat)
    (h : createEscrow st bmId = (st', .ok eid)) :
    ∃ bm bet st2 st3,
      afind st.betMatches bmId = some bm ∧
      afind st.bets bm.bet_id = some bet ∧
      (st.escrows.any (fun p => decide (p.2.bet_match_id = bmId))) = false ∧
      eid = st.nextEscrowId ∧
      updateBalance
        { getWalletSt (getWalletSt st bet.creator_id) bm.taker_id with
          escrows := (eid, { bet_match_id := bmId, amount := round2 (bet.amount * 2),
                             platform_fee := round2 (bet.amount * 2 * PLATFORM_FEE_PERCENT),
                             status := .active, winner_id := none, dispute_reason := none,
                             resolved_by := none, resolution_notes := none, released_at := false }) ::
            (getWalletSt (getWalletSt st bet.creator_id) bm.taker_id).escrows,
          nextEscrowId := eid + 1,
          transactions := (getWalletSt (getWalletSt st bet.creator_id) bm.taker_id).transactions ++
            [{ wallet_id := bet.creator_id, amount := -bet.amount, type := .bet,
                 status := .completed, reference_id := eid, role := some .creator },
             { wallet_id := bm.taker_id, amount := -bet.amount, type := .bet,
                 status := .completed, reference_id := eid, role := some .taker }] }
        bet.creator_id (-bet.amount) = .ok st2 ∧
      updateBalance st2 bm.taker_id (-bet.amount) = .ok st3 ∧
      st' = { st3 with betMatches := aset st3.betMatches bmId
                         ({ bm with status := .active, escrow_created_at := true }) } := by
  unfold createEscrow at h
  split at h
  · simp at h
  · rename_i bm hbm
    split at h
    · simp at h
    · rename_i bet hbet
      split at h
      · simp at h
      · rename_i hany
        dsimp only at h
        split at h
        · simp at h
        · split at h
          · simp at h
          · split at h
            · simp at h
            · rename_i st2 hub1
              split at h
              · simp at h
              · rename_i st3 hub2
                rw [Prod.mk.injEq] at h
                obtain ⟨h1, h2⟩ := h
                rw [Except.ok.injEq] at h2
                subst h2
                refine ⟨bm, bet, st2, st3, hbm, hbet, by simpa using hany, rfl, hub1, hub2, h1.symm⟩


theorem releaseEscrow_ok (st : St) (eid wid : Nat) (st' : St) (r : Nat)
    (h : releaseEscrow st eid wid = (st', .ok r)) :
    ∃ escrow bm bet st2,
      afind st.escrows eid = some escrow ∧
      escrow.status = EscrowStatus.active ∧
      afind st.betMatches escrow.bet_match_id = some bm ∧
      afind st.bets bm.bet_id = some bet ∧
      ¬ (wid ≠ bet.creator_id ∧ wid ≠ bm.taker_id) ∧
      updateBalance
        { getWalletSt st wid with
          transactions := (getWalletSt st wid).transactions ++
            [{ wallet_id := wid, amount := escrow.amount - escrow.platform_fee,
                 type := .win, status := .completed, reference_id := eid, role := none }] }
        wid (escrow.amount - escrow.platform_fee) = .ok st2 ∧
      r = eid ∧
      st' = { st2 with
        payouts := st2.payouts ++
          [{ user_id := wid, escrow_id := eid,
               amount := escrow.amount - escrow.platform_fee, status := .completed }],
        escrows := aset st2.escrows eid
                     ({ escrow with status := .completed, winner_id := some wid,
                                    released_at := true }),
        betMatches := aset st2.betMatches escrow.bet_match_id
                        ({ bm with status := .settled, winner_id := some wid,
                                   settled_at := true }) } := by
  unfold releaseEscrow at h
  split at h
  · simp at h
  · rename_i escrow hesc
    split at h
    · simp at h
    · rename_i hstat
      split at h
      · simp at h
      · rename_i bm hbm
        split at h
        · simp at h
        · rename_i bet hbet
          split at h
          · simp at h
          · rename_i hparty
            dsimp only at h
            split at h
            · simp at h
            · rename_i st2 hub
              rw [Prod.mk.injEq] at h
              obtain ⟨h1, h2⟩ := h
              rw [Except.ok.injEq] at h2
              refine ⟨escrow, bm, bet, st2, hesc, ?_, hbm, hbet, hparty, hub, h2.symm, h1.symm⟩
              by_contra hne
              exact hstat hne

theorem createDispute_ok (st : St) (eid uid : Nat) (reason : String) (st' : St) (r : Nat)
    (h : createDispute st eid uid reason = (st', .ok r)) :
    ∃ escrow bm bet,
      afind st.escrows eid = some escrow ∧
      escrow.status = EscrowStatus.active ∧
      afind st.betMatches escrow.bet_match_id = some bm ∧
      afind st.bets bm.bet_id = some bet ∧
      ¬ (uid ≠ bet.creator_id ∧ uid ≠ bm.taker_id) ∧
      r = eid ∧
      st' = { st with
        escrows := aset st.escrows eid
                     ({ escrow with status := .disputed, dispute_reason := some reason }),
        betMatches := aset st.betMatches escrow.bet_match_id
                        ({ bm with status := .disputed }) } := by
  unfold createDispute at h
  split at h
  · simp at h
  · rename_i escrow hesc
    split at h
    · simp at h
    · rename_i hstat
      split at h
      · simp at h
      · rename_i bm hbm
        split at h
        · simp at h
        · rename_i bet hbet
          split at h
          · simp at h
          · rename_i hparty
            dsimp only at h
            rw [Prod.mk.injEq] at h
            obtain ⟨h1, h2⟩ := h
            rw [Except.ok.injEq] at h2
            refine ⟨escrow, bm, bet, hesc, ?_, hbm, hbet, hparty, h2.symm, h1.symm⟩
            by_contra hne
            exact hstat hne

theorem resolveDispute_ok_winner (st : St) (eid : Nat) (winner a : Nat) (n : String)
    (st' : St) (r : Nat)
    (h : resolveDispute st eid (some winner) a n = (st', .ok r)) :
    ∃ escrow bm bet st2,
      afind st.escrows eid = some escrow ∧
      escrow.status = EscrowStatus.disputed ∧
      afind st.betMatches escrow.bet_match_id = some bm ∧
      afind st.bets bm.bet_id = some bet ∧
      updateBalance
        { getWalletSt st winner with
          transactions := (getWalletSt st winner).transactions ++
            [{ wallet_id := winner, amount := escrow.amount - escrow.platform_fee,
                 type := .win, status := .completed, reference_id := eid, role := none }] }
        winner (escrow.amount - escrow.platform_fee) = .ok st2 ∧
      r = eid ∧
      st' = { st2 with
        payouts := st2.payouts ++
          [{ user_id := winner, escrow_id := eid,
               amount := escrow.amount - escrow.platform_fee, status := .completed }],
        escrows := aset st2.escrows eid
                     ({ escrow with status := .completed, winner_id := some winner,
                                    released_at := true, resolved_by := some a,
                                    resolution_notes := some n }),
        betMatches := aset st2.betMatches escrow.bet_match_id
                        ({ bm with status := .settled, winner_id := some winner,
                                   settled_at := true }) } := by
  unfold resolveDispute at h
  split at h
  · simp at h
  · rename_i escrow hesc
    split at h
    · simp at h
    · rename_i hstat
      split at h
      · simp at h
      · rename_i bm hbm
        split at h
        · simp at h
        · rename_i bet hbet
          dsimp only at h
          split at h
          · simp at h
          · rename_i st2 hub
            rw [Prod.mk.injEq] at h
            obtain ⟨h1, h2⟩ := h
            rw [Except.ok.injEq] at h2
            refine ⟨escrow, bm, bet, st2, hesc, ?_, hbm, hbet, hub, h2.symm, h1.symm⟩
            by_contra hne
            exact hstat hne

theorem resolveDispute_ok_refund (st : St) (eid : Nat) (a : Nat) (n : String)
    (st' : St) (r : Nat)
    (h : resolveDispute st eid none a n = (st', .ok r)) :
    ∃ escrow bm bet st2 st3,
      afind st.escrows eid = some escrow ∧
      escrow.status = EscrowStatus.disputed ∧
      afind st.betMatches escrow.bet_match_id = some bm ∧
      afind st.bets bm.bet_id = some bet ∧
      updateBalance
        { getWalletSt (getWalletSt st bet.creator_id) bm.taker_id with
          transactions := (getWalletSt (getWalletSt st bet.creator_id) bm.taker_id).transactions ++
            [{ wallet_id := bet.creator_id, amount := escrow.amount / 2,
                 type := .refund, status := .completed, reference_id := eid,
                 role := some .creator },
             { wallet_id := bm.taker_id, amount := escrow.amount / 2,
                 type := .refund, status := .completed, reference_id := eid,
                 role := some .taker }] }
        bet.creator_id (escrow.amount / 2) = .ok st2 ∧
      updateBalance st2 bm.taker_id (escrow.amount / 2) = .ok st3 ∧
      r = eid ∧
      st' = { st3 with
        escrows := aset st3.escrows eid
                     ({ escrow with status := .refunded, released_at := true,
                                    resolved_by := some a, resolution_notes := some n }),
        betMatches := aset st3.betMatches escrow.bet_match_id
                        ({ bm with status := .cancelled, cancelled_at := true }) } := by
  unfold resolveDispute at h
  split at h
  · simp at h
  · rename_i escrow hesc
    split at h
    · simp at h
    · rename_i hstat
      split at h
      · simp at h
      · rename_i bm hbm
        split at h
        · simp at h
        · rename_i bet hbet
          dsimp only at h
          split at h
          · simp at h
          · rename_i st2 hub1
            split at h
            · simp at h
            · rename_i st3 hub2
              rw [Prod.mk.injEq] at h
              obtain ⟨h1, h2⟩ := h
              rw [Except.ok.injEq] at h2
              refine ⟨escrow, bm, bet, st2, st3, hesc, ?_, hbm, hbet, hub1, hub2, h2.symm, h1.symm⟩
              by_contra hne
              exact hstat hne

/-!  Claim C10: draws on moneyline bets.  -/

/-- C10: for every moneyline bet (with its matches association loaded) and
every event result in which `home_score` equals `away_score`,
`determineWinner` returns the taker's user id — a drawn event settles as a
full loss for the bet creator, whichever side the creator picked, with no
push, tie or refund outcome. -/
theorem determineWinner_draw_pays_taker
    (bet : Betting.Bet) (res : Betting.EventResult) (m : Betting.BetMatch)
    (tl : List Betting.BetMatch)
    (hm : bet.matches_ = m :: tl) (ht : bet.bet_type = Betting.BetType.moneyline)
    (hs : res.home_score = res.away_score) :
    Betting.determineWinner bet res = .ok m.taker_id := by
  unfold Betting.determineWinner
  rw [hm, ht, hs]
  by_cases hp : bet.bet_details.pick = "home" <;> simp [hp]

theorem determineWinner_draw_pays_taker_witness :
    Betting.determineWinner
      { creator_id := 1, event_id := 7, bet_type := .moneyline,
        bet_details := { pick := "home", spread := 0, total := 0 },
        odds := 2, stake_amount := 1, potential_payout := 2, status := .matched,
        expiry_time := 10,
        matches_ := [{ bet_id := 0, taker_id := 2, stake_amount := 1,
                       potential_payout := 2, platform_fee := 0, escrow_id := 0,
                       status := .active }] }
      { home_score := 3, away_score := 3 } = .ok 2 :=
  determineWinner_draw_pays_taker _ _ _ _ rfl rfl rfl

/-!  Claim C8: wallet non-negativity.  -/

/-- Every wallet row in the store has a non-negative balance. -/
def AllNonneg (st : St) : Prop :=
  ∀ v w, afind st.wallets v = some w → 0 ≤ w.balance

/-- One balance mutation request: the state `updateBalance` leaves behind,
i.e. the new state on success and the untouched state when it throws. -/
def runBalanceOp (st : St) (p : Nat × ℚ) : St :=
  match updateBalance st p.1 p.2 with
  | .ok st' => st'
  | .error _ => st

/-- A sequence of balance mutation requests. -/
def runBalanceOps (st : St) (ops : List (Nat × ℚ)) : St :=
  ops.foldl runBalanceOp st

theorem runBalanceOp_preserves_nonneg (st : St) (p : Nat × ℚ)
    (h : AllNonneg st) : AllNonneg (runBalanceOp st p) := by
  unfold runBalanceOp
  cases hub : updateBalance st p.1 p.2 with
  | error e => exact h
  | ok st' =>
    obtain ⟨w, hw, -, hneg, rfl⟩ := updateBalance_ok hub
    intro v w' hv
    rcases afind_aset_or _ _ _ _ _ hv with ⟨rfl, rfl⟩ | hold
    · exact le_of_not_lt hneg
    · exact h v w' hold

/-- C8: `updateBalance` fails with insufficient funds whenever the resulting
balance of an active wallet would be negative and leaves the state untouched
in that case; consequently every wallet balance stays non-negative under
every sequence of balance mutations. -/
theorem wallet_balance_nonneg :
    (∀ st wid amt w, afind st.wallets wid = some w →
        w.status = WalletStatus.active → w.balance + amt < 0 →
        updateBalance st wid amt = .error Err.insufficientFunds ∧
        runBalanceOp st (wid, amt) = st) ∧
    (∀ st ops, AllNonneg st → AllNonneg (runBalanceOps st ops)) := by
  constructor
  · intro st wid amt w hw hstat hneg
    have hupd : updateBalance st wid amt = .error Err.insufficientFunds := by
      unfold updateBalance
      rw [hw]
      simp [hstat, hneg]
    exact ⟨hupd, by unfold runBalanceOp; rw [hupd]⟩
  · intro st ops
    induction ops generalizing st with
    | nil => intro h; exact h
    | cons hd tl ih =>
      intro h
      exact ih (runBalanceOp st hd) (runBalanceOp_preserves_nonneg st hd h)

/-- A store with one active wallet holding 5. -/
def nonnegSt : St :=
  { wallets := [(1, { balance := 5, status := .active })], transactions := [],
    escrows := [], betMatches := [], bets := [], payouts := [], nextEscrowId := 0 }

theorem wallet_balance_nonneg_witness :
    updateBalance nonnegSt 1 (-6) = .error Err.insufficientFunds ∧
    runBalanceOp nonnegSt (1, -6) = nonnegSt ∧
    AllNonneg (runBalanceOps nonnegSt [(1, -3), (1, -100), (1, 7)]) := by
  have h1 := wallet_balance_nonneg.1 nonnegSt 1 (-6)
    { balance := 5, status := .active } (by simp [nonnegSt, afind]) rfl (by norm_num)
  refine ⟨h1.1, h1.2, ?_⟩
  refine wallet_balance_nonneg.2 nonnegSt [(1, -3), (1, -100), (1, 7)] ?_
  intro v w hw
  unfold nonnegSt at hw
  by_cases hv : (1 : Nat) = v
  · subst hv
    simp [afind] at hw
    rw [← hw]
    norm_num
  · simp [afind, hv] at hw

/-!  Claim C5: whether createBet / takeBet move funds.  -/

/-- A betting store: user 1 holds 100, user 2 holds 200, event 7 starts at
time 10 and the clock reads 5. -/
def betFundSt : Betting.BState :=
  { wallets := [(1, { balance := 100 }), (2, { balance := 200 })],
    events := [(7, { start_time := 10 })],
    bets := [], betMatches := [], escrows := [], transactions := [],
    now := 5, nextId := 0 }

/-- A stake of 50 at decimal odds 1.95 on event 7. -/
def betFundData : Betting.BetData :=
  { event_id := 7, bet_type := .moneyline,
    bet_details := { pick := "home", spread := 0, total := 0 },
    odds := 195 / 100, stake_amount := 50, expiry_time := none }

/-- C5 counterexample: a successful `createBet` drops the creator's wallet
balance from 100 to 50 and appends a balance-changing transaction, so the
claim that neither `createBet` nor `matchBet` changes any wallet balance is
false on the code. -/
theorem createBet_moves_funds_counterexample :
    (Betting.createBet betFundSt 1 betFundData).2 = Except.ok 0 ∧
    Betting.bWalletBalance betFundSt 1 = 100 ∧
    Betting.bWalletBalance (Betting.createBet betFundSt 1 betFundData).1 1 = 50 ∧
    (Betting.createBet betFundSt 1 betFundData).1.transactions =
      [{ user_id := 1, wallet_id := 1, amount := -50, transaction_type := "bet_place",
         status := .completed, reference_id := 0 }] ∧
    (50 : ℚ) ≠ 100 := by
  norm_num [betFundSt, betFundData, Betting.createBet, Betting.bWalletBalance, afind, aset]

/-- C5 amended: `createBet` debits the creator's wallet by the stake and
records one `bet_place` transaction of `-stake`, and `takeBet` debits the
taker's wallet by the required stake `potential_payout - stake_amount` and
records one `bet_place` transaction of that size — funds move at bet time in
the betting service, not only in `createEscrow`. -/
theorem bet_funding_amended :
    (∀ st u bd st' bid, Betting.createBet st u bd = (st', .ok bid) →
      ∃ w, afind st.wallets u = some w ∧
        Betting.bWalletBalance st' u = w.balance - bd.stake_amount ∧
        st'.transactions = st.transactions ++
          [{ user_id := u, wallet_id := u, amount := -bd.stake_amount,
             transaction_type := "bet_place", status := .completed,
             reference_id := bid }]) ∧
    (∀ st u bid st' mid esc, Betting.takeBet st u bid = (st', .ok (mid, esc)) →
      ∃ bet w, afind st.bets bid = some bet ∧ afind st.wallets u = some w ∧
        Betting.bWalletBalance st' u =
          w.balance - (bet.potential_payout - bet.stake_amount) ∧
        st'.transactions = st.transactions ++
          [{ user_id := u, wallet_id := u,
             amount := -(bet.potential_payout - bet.stake_amount),
             transaction_type := "bet_place", status := .completed,
             reference_id := mid }]) := by
  constructor
  · intro st u bd st' bid h
    unfold Betting.createBet at h
    split at h
    · simp at h
    · rename_i w hw
      split at h
      · simp at h
      · split at h
        · simp at h
        · split at h
          · simp at h
          · dsimp only at h
            rw [Prod.mk.injEq] at h
            obtain ⟨h1, h2⟩ := h
            rw [Except.ok.injEq] at h2
            subst h2
            refine ⟨w, hw, ?_, by rw [← h1]⟩
            rw [← h1]
            unfold Betting.bWalletBalance
            rw [show ({ st with
                bets := (st.nextId, _) :: st.bets,
                transactions := _, wallets := aset st.wallets u
                  { balance := w.balance - bd.stake_amount },
                nextId := st.nextId + 1 } : Betting.BState).wallets =
              aset st.wallets u { balance := w.balance - bd.stake_amount } from rfl]
            rw [afind_aset_self _ _ _ _ hw]
  · intro st u bid st' mid esc h
    unfold Betting.takeBet at h
    split at h
    · simp at h
    · rename_i bet hbet
      split at h
      · simp at h
      · split at h
        · simp at h
        · rename_i event hev
          split at h
          · simp at h
          · split at h
            · simp at h
            · split at h
              · simp at h
              · rename_i w hw
                dsimp only at h
                split at h
                · simp at h
                · rw [Prod.mk.injEq] at h
                  obtain ⟨h1, h2⟩ := h
                  rw [Except.ok.injEq, Prod.mk.injEq] at h2
                  obtain ⟨hmid, -⟩ := h2
                  subst hmid
                  refine ⟨bet, w, hbet, hw, ?_, by rw [← h1]⟩
                  rw [← h1]
                  unfold Betting.bWalletBalance
                  rw [show ({ st with
                      escrows := _, betMatches := _, bets := _, transactions := _,
                      wallets := aset st.wallets u
                        { balance := w.balance - (bet.potential_payout - bet.stake_amount) },
                      nextId := st.nextId + 2 } : Betting.BState).wallets =
                    aset st.wallets u
                      { balance := w.balance - (bet.potential_payout - bet.stake_amount) } from rfl]
                  rw [afind_aset_self _ _ _ _ hw]

theorem bet_funding_amended_witness :
    Betting.bWalletBalance (Betting.createBet betFundSt 1 betFundData).1 1 = 100 - 50 ∧
    (Betting.createBet betFundSt 1 betFundData).1.transactions =
      betFundSt.transactions ++
        [{ user_id := 1, wallet_id := 1, amount := -(50 : ℚ),
           transaction_type := "bet_place", status := .completed, reference_id := 0 }] := by
  have h := bet_funding_amended.1 betFundSt 1 betFundData
    (Betting.createBet betFundSt 1 betFundData).1 0
    (by norm_num [betFundSt, betFundData, Betting.createBet, afind, aset])
  obtain ⟨w, hw, hbal, htx⟩ := h
  have hw' : w = { balance := 100 } := by
    have : afind betFundSt.wallets 1 = some { balance := 100 } := by
      simp [betFundSt, afind]
    rw [this] at hw
    exact (Option.some_injective _ hw.symm)
  subst hw'
  exact ⟨by simpa [betFundData] using hbal, by simpa [betFundData, betFundSt] using htx⟩

/-!  Claim C7: atomicity of the multi-step escrow mutations.  -/

theorem createEscrow_insufficient (st : St) (bmId : Nat) (bm : BetMatch) (bet : Bet)
    (w : Wallet)
    (hbm : afind st.betMatches bmId = some bm)
    (hbet : afind st.bets bm.bet_id = some bet)
    (hany : (st.escrows.any (fun p => decide (p.2.bet_match_id = bmId))) = false)
    (hw : afind st.wallets bet.creator_id = some w)
    (hlow : w.balance < bet.amount) :
    createEscrow st bmId =
      (getWalletSt (getWalletSt st bet.creator_id) bm.taker_id,
       .error Err.creatorInsufficientFunds) := by
  have hgw : getWalletW st bet.creator_id = w := by
    unfold getWalletW; rw [hw]
  unfold createEscrow
  simp only [hbm, hbet, hany, Bool.false_eq_true, if_false]
  rw [hgw, if_pos hlow]

/-- C7: each escrow-engine operation is atomic — on any failure it leaves
every transaction, escrow, bet-match, bet and payout row and every wallet
balance unchanged; and `createEscrow` for a creator whose wallet balance is
below the stake fails with the creator-tagged insufficient-funds error,
creating no transaction and no escrow row. -/
theorem escrow_ops_atomic :
    (∀ st bmId st' e, createEscrow st bmId = (st', .error e) → UnchangedCore st st') ∧
    (∀ st eid wid st' e, releaseEscrow st eid wid = (st', .error e) → UnchangedCore st st') ∧
    (∀ st eid uid r st' e, createDispute st eid uid r = (st', .error e) → UnchangedCore st st') ∧
    (∀ st eid w a n st' e, resolveDispute st eid w a n = (st', .error e) → UnchangedCore st st') ∧
    (∀ st bmId bm bet w, afind st.betMatches bmId = some bm →
      afind st.bets bm.bet_id = some bet →
      (st.escrows.any (fun p => decide (p.2.bet_match_id = bmId))) = false →
      afind st.wallets bet.creator_id = some w →
      w.balance < bet.amount →
      createEscrow st bmId =
        (getWalletSt (getWalletSt st bet.creator_id) bm.taker_id,
         .error Err.creatorInsufficientFunds) ∧
      UnchangedCore st (getWalletSt (getWalletSt st bet.creator_id) bm.taker_id)) := by
  refine ⟨createEscrow_error_unchanged, releaseEscrow_error_unchanged,
    createDispute_error_unchanged, resolveDispute_error_unchanged, ?_⟩
  intro st bmId bm bet w hbm hbet hany hw hlow
  exact ⟨createEscrow_insufficient st bmId bm bet w hbm hbet hany hw hlow,
    unchangedCore_getWalletSt2 st _ _⟩

/-- Scenario B store: creator 10 holds 50 and the bet stakes 100. -/
def scenarioBSt : St :=
  { wallets := [(10, { balance := 50, status := .active }),
                (20, { balance := 500, status := .active })],
    transactions := [], escrows := [],
    betMatches := [(2, { bet_id := 1, taker_id := 20, status := .pending,
                         winner_id := none, escrow_created_at := false,
                         settled_at := false, cancelled_at := false })],
    bets := [(1, { creator_id := 10, amount := 100 })],
    payouts := [], nextEscrowId := 0 }

theorem escrow_ops_atomic_witness :
    createEscrow scenarioBSt 2 = (scenarioBSt, .error Err.creatorInsufficientFunds) := by
  have h := (escrow_ops_atomic.2.2.2.2 scenarioBSt 2
    { bet_id := 1, taker_id := 20, status := .pending, winner_id := none,
      escrow_created_at := false, settled_at := false, cancelled_at := false }
    { creator_id := 10, amount := 100 }
    { balance := 50, status := .active }
    (by simp [scenarioBSt, afind])
    (by simp [scenarioBSt, afind])
    (by simp [scenarioBSt])
    (by simp [scenarioBSt, afind])
    (by norm_num)).1
  rw [h]
  norm_num [scenarioBSt, getWalletSt, afind]


theorem walletBalance_congr (st st' : St) (h : st'.wallets = st.wallets) (u : Nat) :
    walletBalance st' u = walletBalance st u := by
  unfold walletBalance; rw [h]

theorem createEscrow_ok_tables (st : St) (bmId : Nat) (st' : St) (eid : Nat)
    (h : createEscrow st bmId = (st', .ok eid)) :
    ∃ bm bet,
      afind st.betMatches bmId = some bm ∧
      afind st.bets bm.bet_id = some bet ∧
      eid = st.nextEscrowId ∧
      st'.transactions = st.transactions ++
        [{ wallet_id := bet.creator_id, amount := -bet.amount, type := .bet,
           status := .completed, reference_id := eid, role := some .creator },
         { wallet_id := bm.taker_id, amount := -bet.amount, type := .bet,
           status := .completed, reference_id := eid, role := some .taker }] ∧
      st'.escrows = (eid,
        { bet_match_id := bmId, amount := round2 (bet.amount * 2),
          platform_fee := round2 (bet.amount * 2 * PLATFORM_FEE_PERCENT),
          status := .active, winner_id := none, dispute_reason := none,
          resolved_by := none, resolution_notes := none,
          released_at := false }) :: st.escrows ∧
      st'.bets = st.bets ∧ st'.payouts = st.payouts ∧
      st'.nextEscrowId = st.nextEscrowId + 1 ∧
      st'.betMatches = aset st.betMatches bmId
        ({ bm with status := .active, escrow_created_at := true }) := by
  obtain ⟨bm, bet, st2, st3, hbm, hbet, hany, heid, hub1, hub2, hst'⟩ :=
    createEscrow_ok st bmId st' eid h
  obtain ⟨w1, hw1, -, -, hst2⟩ := updateBalance_ok hub1
  obtain ⟨w2, hw2, -, -, hst3⟩ := updateBalance_ok hub2
  subst hst2
  subst hst3
  subst hst'
  subst heid
  refine ⟨bm, bet, hbm, hbet, rfl, ?_, ?_, ?_, ?_, ?_, ?_⟩ <;>
    simp [getWalletSt_transactions, getWalletSt_escrows, getWalletSt_bets,
      getWalletSt_payouts, getWalletSt_nextEscrowId, getWalletSt_betMatches]

theorem releaseEscrow_ok_tables (st : St) (eid wid : Nat) (st' : St) (r : Nat)
    (h : releaseEscrow st eid wid = (st', .ok r)) :
    ∃ esc bm bet,
      afind st.escrows eid = some esc ∧
      esc.status = EscrowStatus.active ∧
      afind st.betMatches esc.bet_match_id = some bm ∧
      afind st.bets bm.bet_id = some bet ∧
      (wid = bet.creator_id ∨ wid = bm.taker_id) ∧
      r = eid ∧
      st'.transactions = st.transactions ++
        [{ wallet_id := wid, amount := esc.amount - esc.platform_fee, type := .win,
           status := .completed, reference_id := eid, role := none }] ∧
      st'.payouts = st.payouts ++
        [{ user_id := wid, escrow_id := eid, amount := esc.amount - esc.platform_fee,
           status := .completed }] ∧
      st'.escrows = aset st.escrows eid
        ({ esc with status := .completed, winner_id := some wid, released_at := true }) ∧
      st'.betMatches = aset st.betMatches esc.bet_match_id
        ({ bm with status := .settled, winner_id := some wid, settled_at := true }) ∧
      st'.bets = st.bets ∧ st'.nextEscrowId = st.nextEscrowId ∧
      walletBalance st' wid = walletBalance st wid + (esc.amount - esc.platform_fee) ∧
      (∀ u, u ≠ wid → walletBalance st' u = walletBalance st u) := by
  obtain ⟨esc, bm, bet, st2, hesc, hstat, hbm, hbet, hparty, hub, hr, hst'⟩ :=
    releaseEscrow_ok st eid wid st' r h
  have hparty' : wid = bet.creator_id ∨ wid = bm.taker_id := by
    by_cases hc : wid = bet.creator_id
    · exact Or.inl hc
    · refine Or.inr ?_
      by_contra ht
      exact hparty ⟨hc, ht⟩
  have hself : walletBalance st2 wid =
      walletBalance st wid + (esc.amount - esc.platform_fee) := by
    rw [updateBalance_ok_balance_self hub]
    congr 1
    exact (walletBalance_congr (getWalletSt st wid) _ rfl wid).trans
      (walletBalance_getWalletSt st wid wid)
  have hothers : ∀ u, u ≠ wid → walletBalance st2 u = walletBalance st u := by
    intro u hu
    exact (updateBalance_ok_balance_other hub u hu).trans
      ((walletBalance_congr (getWalletSt st wid) _ rfl u).trans
        (walletBalance_getWalletSt st wid u))
  obtain ⟨w1, hw1, -, -, hst2⟩ := updateBalance_ok hub
  subst hst'
  subst hr
  refine ⟨esc, bm, bet, hesc, hstat, hbm, hbet, hparty', rfl, ?_, ?_, ?_, ?_, ?_, ?_, ?_, ?_⟩
  · simp [hst2, getWalletSt_transactions]
  · simp [hst2, getWalletSt_payouts]
  · simp [hst2, getWalletSt_escrows]
  · simp [hst2, getWalletSt_betMatches]
  · simp [hst2, getWalletSt_bets]
  · simp [hst2, getWalletSt_nextEscrowId]
  · exact (walletBalance_congr st2 _ rfl wid).trans hself
  · intro u hu
    exact (walletBalance_congr st2 _ rfl u).trans (hothers u hu)


theorem createDispute_ok_tables (st : St) (eid uid : Nat) (reason : String)
    (st' : St) (r : Nat)
    (h : createDispute st eid uid reason = (st', .ok r)) :
    ∃ esc bm bet,
      afind st.escrows eid = some esc ∧
      esc.status = EscrowStatus.active ∧
      afind st.betMatches esc.bet_match_id = some bm ∧
      afind st.bets bm.bet_id = some bet ∧
      (uid = bet.creator_id ∨ uid = bm.taker_id) ∧
      r = eid ∧
      st'.transactions = st.transactions ∧
      st'.payouts = st.payouts ∧
      st'.escrows = aset st.escrows eid
        ({ esc with status := .disputed, dispute_reason := some reason }) ∧
      st'.betMatches = aset st.betMatches esc.bet_match_id
        ({ bm with status := .disputed }) ∧
      st'.bets = st.bets ∧ st'.nextEscrowId = st.nextEscrowId ∧
      (∀ u, walletBalance st' u = walletBalance st u) := by
  obtain ⟨esc, bm, bet, hesc, hstat, hbm, hbet, hparty, hr, hst'⟩ :=
    createDispute_ok st eid uid reason st' r h
  have hparty' : uid = bet.creator_id ∨ uid = bm.taker_id := by
    by_cases hc : uid = bet.creator_id
    · exact Or.inl hc
    · refine Or.inr ?_
      by_contra ht
      exact hparty ⟨hc, ht⟩
  subst hst'
  subst hr
  exact ⟨esc, bm, bet, hesc, hstat, hbm, hbet, hparty', rfl, rfl, rfl, rfl, rfl, rfl, rfl,
    fun u => walletBalance_congr st _ rfl u⟩

theorem resolveDispute_winner_tables (st : St) (eid winner a : Nat) (n : String)
    (st' : St) (r : Nat)
    (h : resolveDispute st eid (some winner) a n = (st', .ok r)) :
    ∃ esc bm bet,
      afind st.escrows eid = some esc ∧
      esc.status = EscrowStatus.disputed ∧
      afind st.betMatches esc.bet_match_id = some bm ∧
      afind st.bets bm.bet_id = some bet ∧
      r = eid ∧
      st'.transactions = st.transactions ++
        [{ wallet_id := winner, amount := esc.amount - esc.platform_fee, type := .win,
           status := .completed, reference_id := eid, role := none }] ∧
      st'.payouts = st.payouts ++
        [{ user_id := winner, escrow_id := eid, amount := esc.amount - esc.platform_fee,
           status := .completed }] ∧
      st'.escrows = aset st.escrows eid
        ({ esc with status := .completed, winner_id := some winner, released_at := true,
                    resolved_by := some a, resolution_notes := some n }) ∧
      st'.betMatches = aset st.betMatches esc.bet_match_id
        ({ bm with status := .settled, winner_id := some winner, settled_at := true }) ∧
      st'.bets = st.bets ∧ st'.nextEscrowId = st.nextEscrowId ∧
      walletBalance st' winner = walletBalance st winner + (esc.amount - esc.platform_fee) ∧
      (∀ u, u ≠ winner → walletBalance st' u = walletBalance st u) := by
  obtain ⟨esc, bm, bet, st2, hesc, hstat, hbm, hbet, hub, hr, hst'⟩ :=
    resolveDispute_ok_winner st eid winner a n st' r h
  have hself : walletBalance st2 winner =
      walletBalance st winner + (esc.amount - esc.platform_fee) := by
    rw [updateBalance_ok_balance_self hub]
    congr 1
    exact (walletBalance_congr (getWalletSt st winner) _ rfl winner).trans
      (walletBalance_getWalletSt st winner winner)
  have hothers : ∀ u, u ≠ winner → walletBalance st2 u = walletBalance st u := by
    intro u hu
    exact (updateBalance_ok_balance_other hub u hu).trans
      ((walletBalance_congr (getWalletSt st winner) _ rfl u).trans
        (walletBalance_getWalletSt st winner u))
  obtain ⟨w1, hw1, -, -, hst2⟩ := updateBalance_ok hub
  subst hst'
  subst hr
  refine ⟨esc, bm, bet, hesc, hstat, hbm, hbet, rfl, ?_, ?_, ?_, ?_, ?_, ?_, ?_, ?_⟩
  · simp [hst2, getWalletSt_transactions]
  · simp [hst2, getWalletSt_payouts]
  · simp [hst2, getWalletSt_escrows]
  · simp [hst2, getWalletSt_betMatches]
  · simp [hst2, getWalletSt_bets]
  · simp [hst2, getWalletSt_nextEscrowId]
  · exact (walletBalance_congr st2 _ rfl winner).trans hself
  · intro u hu
    exact (walletBalance_congr st2 _ rfl u).trans (hothers u hu)

theorem resolveDispute_refund_tables (st : St) (eid a : Nat) (n : String)
    (st' : St) (r : Nat)
    (h : resolveDispute st eid none a n = (st', .ok r)) :
    ∃ esc bm bet,
      afind st.escrows eid = some esc ∧
      esc.status = EscrowStatus.disputed ∧
      afind st.betMatches esc.bet_match_id = some bm ∧
      afind st.bets bm.bet_id = some bet ∧
      r = eid ∧
      st'.transactions = st.transactions ++
        [{ wallet_id := bet.creator_id, amount := esc.amount / 2, type := .refund,
           status := .completed, reference_id := eid, role := some .creator },
         { wallet_id := bm.taker_id, amount := esc.amount / 2, type := .refund,
           status := .completed, reference_id := eid, role := some .taker }] ∧
      st'.payouts = st.payouts ∧
      st'.escrows = aset st.escrows eid
        ({ esc with status := .refunded, released_at := true,
                    resolved_by := some a, resolution_notes := some n }) ∧
      st'.betMatches = aset st.betMatches esc.bet_match_id
        ({ bm with status := .cancelled, cancelled_at := true }) ∧
      st'.bets = st.bets ∧ st'.nextEscrowId = st.nextEscrowId ∧
      (bet.creator_id ≠ bm.taker_id →
        walletBalance st' bet.creator_id =
          walletBalance st bet.creator_id + esc.amount / 2 ∧
        walletBalance st' bm.taker_id =
          walletBalance st bm.taker_id + esc.amount / 2) ∧
      (∀ u, u ≠ bet.creator_id → u ≠ bm.taker_id →
        walletBalance st' u = walletBalance st u) := by
  obtain ⟨esc, bm, bet, st2, st3, hesc, hstat, hbm, hbet, hub1, hub2, hr, hst'⟩ :=
    resolveDispute_ok_refund st eid a n st' r h
  have hbase : ∀ u, walletBalance
      (getWalletSt (getWalletSt st bet.creator_id) bm.taker_id) u = walletBalance st u := by
    intro u
    rw [walletBalance_getWalletSt, walletBalance_getWalletSt]
  have hb1 : ∀ u, walletBalance st2 u =
      (if u = bet.creator_id then walletBalance st u + esc.amount / 2
       else walletBalance st u) := by
    intro u
    by_cases hu : u = bet.creator_id
    · rw [hu, if_pos rfl, updateBalance_ok_balance_self hub1]
      congr 1
      exact (walletBalance_congr
        (getWalletSt (getWalletSt st bet.creator_id) bm.taker_id) _ rfl _).trans (hbase _)
    · rw [if_neg hu, updateBalance_ok_balance_other hub1 u hu]
      exact (walletBalance_congr
        (getWalletSt (getWalletSt st bet.creator_id) bm.taker_id) _ rfl u).trans (hbase u)
  have hb2 : ∀ u, walletBalance st3 u =
      (if u = bm.taker_id then walletBalance st2 u + esc.amount / 2
       else walletBalance st2 u) := by
    intro u
    by_cases hu : u = bm.taker_id
    · rw [hu, if_pos rfl, updateBalance_ok_balance_self hub2]
    · rw [if_neg hu, updateBalance_ok_balance_other hub2 u hu]
  obtain ⟨w1, hw1, -, -, hst2⟩ := updateBalance_ok hub1
  obtain ⟨w2, hw2, -, -, hst3⟩ := updateBalance_ok hub2
  subst hst'
  subst hr
  refine ⟨esc, bm, bet, hesc, hstat, hbm, hbet, rfl, ?_, ?_, ?_, ?_, ?_, ?_, ?_, ?_⟩
  · simp [hst3, hst2, getWalletSt_transactions]
  · simp [hst3, hst2, getWalletSt_payouts]
  · simp [hst3, hst2, getWalletSt_escrows]
  · simp [hst3, hst2, getWalletSt_betMatches]
  · simp [hst3, hst2, getWalletSt_bets]
  · simp [hst3, hst2, getWalletSt_nextEscrowId]
  · intro hct
    constructor
    · refine (walletBalance_congr st3 _ rfl bet.creator_id).trans ?_
      rw [hb2, if_neg hct, hb1, if_pos rfl]
    · refine (walletBalance_congr st3 _ rfl bm.taker_id).trans ?_
      rw [hb2, if_pos rfl, hb1, if_neg (Ne.symm hct)]
  · intro u huc hut
    refine (walletBalance_congr st3 _ rfl u).trans ?_
    rw [hb2, if_neg hut, hb1, if_neg huc]


theorem afind_some_mem {α : Type} (l : List (Nat × α)) (k : Nat) (v : α)
    (h : afind l k = some v) : (k, v) ∈ l := by
  induction l with
  | nil => simp [afind] at h
  | cons hd tl ih =>
    obtain ⟨k0, v0⟩ := hd
    by_cases hk : k0 = k
    · subst hk
      simp [afind] at h
      simp [h]
    · simp [afind, hk] at h
      simp [ih h]

theorem mem_aset {α : Type} (l : List (Nat × α)) (k : Nat) (v : α) (p : Nat × α)
    (hp : p ∈ aset l k v) : p = (k, v) ∨ p ∈ l := by
  induction l with
  | nil => simp [aset] at hp
  | cons hd tl ih =>
    obtain ⟨k0, v0⟩ := hd
    unfold aset at hp
    by_cases hk : k0 = k
    · subst hk
      rw [if_pos rfl] at hp
      rcases List.mem_cons.mp hp with h | h
      · exact Or.inl h
      · exact Or.inr (List.mem_cons_of_mem _ h)
    · rw [if_neg hk] at hp
      rcases List.mem_cons.mp hp with h | h
      · exact Or.inr (by simp [h])
      · rcases ih h with h2 | h2
        · exact Or.inl h2
        · exact Or.inr (List.mem_cons_of_mem _ h2)

/-!  Claim C3: fee computation and payout.  -/

/-- C3: the platform fee stored with every escrow equals the escrow amount
times the creation-time fee rate, rounded to the two decimal places its
DECIMAL(15,2) column keeps; the payout released to the winner is exactly
`amount - platform_fee` read back from the stored row, and payout plus fee
reassemble the amount exactly, with no residual. -/
theorem fee_correctness :
    (∀ st bmId st' eid bm bet,
      createEscrow st bmId = (st', .ok eid) →
      afind st.betMatches bmId = some bm →
      afind st.bets bm.bet_id = some bet →
      Is2dp bet.amount →
      ∃ esc, afind st'.escrows eid = some esc ∧
        esc.amount = bet.amount * 2 ∧
        esc.platform_fee = round2 (esc.amount * PLATFORM_FEE_PERCENT)) ∧
    (∀ st eid wid st' r esc,
      releaseEscrow st eid wid = (st', .ok r) →
      afind st.escrows eid = some esc →
      st'.payouts = st.payouts ++
        [{ user_id := wid, escrow_id := eid, amount := esc.amount - esc.platform_fee,
           status := .completed }] ∧
      walletBalance st' wid = walletBalance st wid + (esc.amount - esc.platform_fee) ∧
      (esc.amount - esc.platform_fee) + esc.platform_fee = esc.amount) := by
  constructor
  · intro st bmId st' eid bm bet h hbm hbet h2dp
    obtain ⟨bm', bet', hbm', hbet', heid, -, hescs, -, -, -, -⟩ :=
      createEscrow_ok_tables st bmId st' eid h
    rw [hbm'] at hbm
    have hbmq : bm' = bm := Option.some_injective _ hbm
    rw [hbmq] at hbet'
    rw [hbet'] at hbet
    have hbetq : bet' = bet := Option.some_injective _ hbet
    rw [hbetq] at hescs
    have hamt : round2 (bet.amount * 2) = bet.amount * 2 :=
      round2_of_Is2dp (by rw [mul_comm]; exact Is2dp_two_mul h2dp)
    refine ⟨{ bet_match_id := bmId, amount := round2 (bet.amount * 2),
              platform_fee := round2 (bet.amount * 2 * PLATFORM_FEE_PERCENT),
              status := .active, winner_id := none, dispute_reason := none,
              resolved_by := none, resolution_notes := none, released_at := false },
            ?_, ?_, ?_⟩
    · rw [hescs]
      simp [afind]
    · exact hamt
    · dsimp only
      rw [hamt]
  · intro st eid wid st' r esc h hesc
    obtain ⟨esc', bm, bet, hesc', -, -, -, -, -, -, hpay, -, -, -, -, hbal, -⟩ :=
      releaseEscrow_ok_tables st eid wid st' r h
    rw [hesc'] at hesc
    have hescq : esc' = esc := Option.some_injective _ hesc
    rw [hescq] at hpay hbal
    exact ⟨hpay, hbal, by ring⟩


/-- A store whose bet stakes 97.55, so the fee 195.10 * 0.03 = 5.853 genuinely
rounds to 5.85 in the DECIMAL(15,2) column. -/
def feeSt : St :=
  { wallets := [(10, { balance := 200, status := .active }),
                (20, { balance := 200, status := .active })],
    transactions := [], escrows := [],
    betMatches := [(2, { bet_id := 1, taker_id := 20, status := .pending,
                         winner_id := none, escrow_created_at := false,
                         settled_at := false, cancelled_at := false })],
    bets := [(1, { creator_id := 10, amount := 9755 / 100 })],
    payouts := [], nextEscrowId := 0 }

theorem fee_correctness_witness :
    (∃ esc, afind (createEscrow feeSt 2).1.escrows 0 = some esc ∧
      esc.amount = 9755 / 100 * 2 ∧
      esc.platform_fee = round2 (esc.amount * PLATFORM_FEE_PERCENT)) ∧
    walletBalance (releaseEscrow (createEscrow feeSt 2).1 0 10).1 10 =
      walletBalance (createEscrow feeSt 2).1 10 + (1951 / 10 - 117 / 20) := by
  constructor
  · exact fee_correctness.1 feeSt 2 (createEscrow feeSt 2).1 0
      { bet_id := 1, taker_id := 20, status := .pending, winner_id := none,
        escrow_created_at := false, settled_at := false, cancelled_at := false }
      { creator_id := 10, amount := 9755 / 100 }
      (by norm_num [createEscrow, feeSt, afind, aset, getWalletW, getWalletSt,
        updateBalance, round2, PLATFORM_FEE_PERCENT, round_eq])
      (by simp [feeSt, afind]) (by simp [feeSt, afind])
      ⟨9755, by norm_num⟩
  · have h2 := fee_correctness.2 (createEscrow feeSt 2).1 0 10
      (releaseEscrow (createEscrow feeSt 2).1 0 10).1 0
      { bet_match_id := 2, amount := 1951 / 10, platform_fee := 117 / 20,
        status := .active, winner_id := none, dispute_reason := none,
        resolved_by := none, resolution_notes := none, released_at := false }
      (by norm_num [createEscrow, releaseEscrow, feeSt, afind, aset, getWalletW,
        getWalletSt, updateBalance, round2, PLATFORM_FEE_PERCENT, round_eq])
      (by norm_num [createEscrow, feeSt, afind, aset, getWalletW, getWalletSt,
        updateBalance, round2, PLATFORM_FEE_PERCENT, round_eq])
    exact h2.2.1


/-!  Claim C2: the escrow amount at creation.  -/

/-- Scenario A in the betting service: an open bet staking 100 at odds 1.95
(potential payout 195), taker 2 about to match it. -/
def scenarioABetSt : Betting.BState :=
  { wallets := [(1, { balance := 1000 }), (2, { balance := 1000 })],
    events := [(7, { start_time := 10 })],
    bets := [(5, { creator_id := 1, event_id := 7, bet_type := .moneyline,
                   bet_details := { pick := "home", spread := 0, total := 0 },
                   odds := 195 / 100, stake_amount := 100, potential_payout := 195,
                   status := .open_, expiry_time := 10, matches_ := [] })],
    betMatches := [], escrows := [], transactions := [], now := 5, nextId := 0 }

/-- Scenario A in the escrow service: the same match (creator 10 staking 100,
taker 20) handed to createEscrow. -/
def scenarioASt : St :=
  { wallets := [(10, { balance := 1000, status := .active }),
                (20, { balance := 1000, status := .active })],
    transactions := [], escrows := [],
    betMatches := [(2, { bet_id := 1, taker_id := 20, status := .pending,
                         winner_id := none, escrow_created_at := false,
                         settled_at := false, cancelled_at := false })],
    bets := [(1, { creator_id := 10, amount := 100 })],
    payouts := [], nextEscrowId := 0 }

/-- C2 counterexample: for a creator stake of 100 at odds 1.95 the taker's
required stake computed by takeBet is 95, so creator plus taker stakes total
195 — but createEscrow stores amount 200 (twice the creator's stake), not
195. -/
theorem escrow_amount_counterexample :
    (Betting.takeBet scenarioABetSt 2 5).2 = Except.ok (1, 0) ∧
    afind (Betting.takeBet scenarioABetSt 2 5).1.escrows 0 = some
      { creator_amount := 100, taker_amount := 95, platform_fee := 117 / 20,
        status := .held, winner_id := none, bet_match_id := some 1,
        released_at := false } ∧
    (createEscrow scenarioASt 2).2 = Except.ok 0 ∧
    afind (createEscrow scenarioASt 2).1.escrows 0 = some
      { bet_match_id := 2, amount := 200, platform_fee := 6, status := .active,
        winner_id := none, dispute_reason := none, resolved_by := none,
        resolution_notes := none, released_at := false } ∧
    (200 : ℚ) ≠ 100 + 95 := by
  refine ⟨?_, ?_, ?_, ?_, by norm_num⟩ <;>
    norm_num [scenarioABetSt, scenarioASt, Betting.takeBet, createEscrow, afind,
      aset, getWalletW, getWalletSt, updateBalance, round2, PLATFORM_FEE_PERCENT,
      round_eq]

/-- C2 amended: at creation `escrow.amount` is exactly twice the creator's
stake (`bet.amount * 2` as stored by the DECIMAL column), which equals
creator stake plus taker stake only when the two stakes coincide; and no
escrow-engine operation ever alters the amount of an existing escrow row. -/
theorem escrow_amount_amended :
    (∀ st bmId st' eid bm bet, createEscrow st bmId = (st', .ok eid) →
      afind st.betMatches bmId = some bm →
      afind st.bets bm.bet_id = some bet →
      Is2dp bet.amount →
      ∃ esc, afind st'.escrows eid = some esc ∧ esc.amount = bet.amount * 2) ∧
    (∀ st op eid e e',
      (∀ p ∈ st.escrows, p.1 < st.nextEscrowId) →
      afind st.escrows eid = some e →
      afind (stepOp st op).escrows eid = some e' →
      e'.amount = e.amount) := by
  constructor
  · intro st bmId st' eid bm bet h hbm hbet h2dp
    obtain ⟨bm', bet', hbm', hbet', heid, -, hescs, -, -, -, -⟩ :=
      createEscrow_ok_tables st bmId st' eid h
    rw [hbm'] at hbm
    have hbmq : bm' = bm := Option.some_injective _ hbm
    rw [hbmq] at hbet'
    rw [hbet'] at hbet
    have hbetq : bet' = bet := Option.some_injective _ hbet
    rw [hbetq] at hescs
    have hamt : round2 (bet.amount * 2) = bet.amount * 2 :=
      round2_of_Is2dp (by rw [mul_comm]; exact Is2dp_two_mul h2dp)
    refine ⟨{ bet_match_id := bmId, amount := round2 (bet.amount * 2),
              platform_fee := round2 (bet.amount * 2 * PLATFORM_FEE_PERCENT),
              status := .active, winner_id := none, dispute_reason := none,
              resolved_by := none, resolution_notes := none, released_at := false },
            ?_, ?_⟩
    · rw [hescs]
      simp [afind]
    · exact hamt
  · intro st op eid e e' hfresh he he'
    cases op with
    | createEscrow bmId =>
      have hstep : stepOp st (Op.createEscrow bmId) = (createEscrow st bmId).1 := rfl
      rw [hstep] at he'
      cases hres : createEscrow st bmId with
      | mk st1 res =>
        rw [hres] at he'
        cases res with
        | error err =>
          obtain ⟨-, hescs, -, -, -, -, -⟩ := createEscrow_error_unchanged st bmId st1 err hres
          rw [hescs, he] at he'
          rw [Option.some_injective _ he']
        | ok eid0 =>
          obtain ⟨bm, bet, hbm, hbet, heid0, -, hescs, -, -, -, -⟩ :=
            createEscrow_ok_tables st bmId st1 eid0 hres
          rw [hescs] at he'
          unfold afind at he'
          by_cases hk : eid0 = eid
          · exfalso
            have hmem := afind_some_mem _ _ _ he
            have hlt := hfresh (eid, e) hmem
            rw [← hk, heid0] at hlt
            exact lt_irrefl _ hlt
          · rw [if_neg hk, he] at he'
            rw [Option.some_injective _ he']
    | release eid0 wid =>
      have hstep : stepOp st (Op.release eid0 wid) = (releaseEscrow st eid0 wid).1 := rfl
      rw [hstep] at he'
      cases hres : releaseEscrow st eid0 wid with
      | mk st1 res =>
        rw [hres] at he'
        cases res with
        | error err =>
          obtain ⟨-, hescs, -, -, -, -, -⟩ := releaseEscrow_error_unchanged st eid0 wid st1 err hres
          rw [hescs, he] at he'
          rw [Option.some_injective _ he']
        | ok r =>
          obtain ⟨esc, bm, bet, hesc, -, -, -, -, -, -, -, hescs, -, -, -, -, -⟩ :=
            releaseEscrow_ok_tables st eid0 wid st1 r hres
          rw [hescs] at he'
          rcases afind_aset_or _ _ _ _ _ he' with ⟨hk, hv⟩ | hold
          · subst hk
            rw [hesc] at he
            rw [← Option.some_injective _ he, hv]
          · rw [he] at hold
            rw [Option.some_injective _ hold]
    | openDispute eid0 uid reason =>
      have hstep : stepOp st (Op.openDispute eid0 uid reason) =
        (createDispute st eid0 uid reason).1 := rfl
      rw [hstep] at he'
      cases hres : createDispute st eid0 uid reason with
      | mk st1 res =>
        rw [hres] at he'
        cases res with
        | error err =>
          obtain ⟨-, hescs, -, -, -, -, -⟩ :=
            createDispute_error_unchanged st eid0 uid reason st1 err hres
          rw [hescs, he] at he'
          rw [Option.some_injective _ he']
        | ok r =>
          obtain ⟨esc, bm, bet, hesc, -, -, -, -, -, -, -, hescs, -, -, -, -⟩ :=
            createDispute_ok_tables st eid0 uid reason st1 r hres
          rw [hescs] at he'
          rcases afind_aset_or _ _ _ _ _ he' with ⟨hk, hv⟩ | hold
          · subst hk
            rw [hesc] at he
            rw [← Option.some_injective _ he, hv]
          · rw [he] at hold
            rw [Option.some_injective _ hold]
    | resolveDispute eid0 w a n =>
      have hstep : stepOp st (Op.resolveDispute eid0 w a n) =
        (resolveDispute st eid0 w a n).1 := rfl
      rw [hstep] at he'
      cases hres : resolveDispute st eid0 w a n with
      | mk st1 res =>
        rw [hres] at he'
        cases res with
        | error err =>
          obtain ⟨-, hescs, -, -, -, -, -⟩ :=
            resolveDispute_error_unchanged st eid0 w a n st1 err hres
          rw [hescs, he] at he'
          rw [Option.some_injective _ he']
        | ok r =>
          cases w with
          | some winner =>
            obtain ⟨esc, bm, bet, hesc, -, -, -, -, -, -, hescs, -, -, -, -, -⟩ :=
              resolveDispute_winner_tables st eid0 winner a n st1 r hres
            rw [hescs] at he'
            rcases afind_aset_or _ _ _ _ _ he' with ⟨hk, hv⟩ | hold
            · subst hk
              rw [hesc] at he
              rw [← Option.some_injective _ he, hv]
            · rw [he] at hold
              rw [Option.some_injective _ hold]
          | none =>
            obtain ⟨esc, bm, bet, hesc, -, -, -, -, -, -, hescs, -, -, -, -, -⟩ :=
              resolveDispute_refund_tables st eid0 a n st1 r hres
            rw [hescs] at he'
            rcases afind_aset_or _ _ _ _ _ he' with ⟨hk, hv⟩ | hold
            · subst hk
              rw [hesc] at he
              rw [← Option.some_injective _ he, hv]
            · rw [he] at hold
              rw [Option.some_injective _ hold]


/-- A store holding one active escrow (amount 200, fee 6) for the match of
creator 10 and taker 20. -/
def activeEscSt : St :=
  { wallets := [(10, { balance := 0, status := .active }),
                (20, { balance := 0, status := .active })],
    transactions := [],
    escrows := [(0, { bet_match_id := 2, amount := 200, platform_fee := 6,
                      status := .active, winner_id := none, dispute_reason := none,
                      resolved_by := none, resolution_notes := none,
                      released_at := false })],
    betMatches := [(2, { bet_id := 1, taker_id := 20, status := .active,
                         winner_id := none, escrow_created_at := true,
                         settled_at := false, cancelled_at := false })],
    bets := [(1, { creator_id := 10, amount := 100 })],
    payouts := [], nextEscrowId := 1 }

theorem escrow_amount_amended_witness :
    (∃ esc, afind (createEscrow scenarioASt 2).1.escrows 0 = some esc ∧
      esc.amount = 100 * 2) ∧
    ({ bet_match_id := 2, amount := 200, platform_fee := 6,
       status := EscrowStatus.disputed, winner_id := none,
       dispute_reason := some "r", resolved_by := none, resolution_notes := none,
       released_at := false } : Escrow).amount =
      ({ bet_match_id := 2, amount := 200, platform_fee := 6,
         status := EscrowStatus.active, winner_id := none, dispute_reason := none,
         resolved_by := none, resolution_notes := none,
         released_at := false } : Escrow).amount := by
  constructor
  · exact escrow_amount_amended.1 scenarioASt 2 (createEscrow scenarioASt 2).1 0
      { bet_id := 1, taker_id := 20, status := .pending, winner_id := none,
        escrow_created_at := false, settled_at := false, cancelled_at := false }
      { creator_id := 10, amount := 100 }
      (by norm_num [createEscrow, scenarioASt, afind, aset, getWalletW, getWalletSt,
        updateBalance, round2, PLATFORM_FEE_PERCENT, round_eq])
      (by simp [scenarioASt, afind]) (by simp [scenarioASt, afind])
      ⟨10000, by norm_num⟩
  · exact escrow_amount_amended.2 activeEscSt (Op.openDispute 0 10 "r") 0
      { bet_match_id := 2, amount := 200, platform_fee := 6,
        status := EscrowStatus.active, winner_id := none, dispute_reason := none,
        resolved_by := none, resolution_notes := none, released_at := false }
      { bet_match_id := 2, amount := 200, platform_fee := 6,
        status := EscrowStatus.disputed, winner_id := none,
        dispute_reason := some "r", resolved_by := none, resolution_notes := none,
        released_at := false }
      (by intro p hp
          simp [activeEscSt] at hp
          rw [hp]
          norm_num [activeEscSt])
      (by simp [activeEscSt, afind])
      (by norm_num [stepOp, createDispute, activeEscSt, afind, aset])

/-!  Claim C4: refund on dispute resolution with a null winner.  -/

/-- C4: on a disputed escrow funded with `amount = 2 * stake`, resolveDispute
with a null winner credits each party exactly its original stake (half the
escrow amount, with no fee deducted), records one refund transaction per
party, marks the escrow refunded (stamped with the resolver) and the bet
match cancelled. -/
theorem resolveDispute_refund_correct
    (st : St) (eid a : Nat) (n : String) (st' : St) (r : Nat)
    (esc : Escrow) (bm : BetMatch) (bet : Bet)
    (h : resolveDispute st eid none a n = (st', .ok r))
    (hesc : afind st.escrows eid = some esc)
    (hbm : afind st.betMatches esc.bet_match_id = some bm)
    (hbet : afind st.bets bm.bet_id = some bet)
    (hamt : esc.amount = bet.amount * 2)
    (hct : bet.creator_id ≠ bm.taker_id) :
    esc.status = EscrowStatus.disputed ∧
    walletBalance st' bet.creator_id = walletBalance st bet.creator_id + bet.amount ∧
    walletBalance st' bm.taker_id = walletBalance st bm.taker_id + bet.amount ∧
    st'.transactions = st.transactions ++
      [{ wallet_id := bet.creator_id, amount := esc.amount / 2, type := .refund,
         status := .completed, reference_id := eid, role := some .creator },
       { wallet_id := bm.taker_id, amount := esc.amount / 2, type := .refund,
         status := .completed, reference_id := eid, role := some .taker }] ∧
    esc.amount / 2 + esc.amount / 2 = esc.amount ∧
    afind st'.escrows eid = some
      ({ esc with status := .refunded, released_at := true,
                  resolved_by := some a, resolution_notes := some n }) ∧
    afind st'.betMatches esc.bet_match_id = some
      ({ bm with status := .cancelled, cancelled_at := true }) := by
  obtain ⟨esc', bm', bet', hesc', hstat, hbm', hbet', hr, htx, -, hescs, hbms, -, -,
    hbal, -⟩ := resolveDispute_refund_tables st eid a n st' r h
  rw [hesc'] at hesc
  have hescq : esc' = esc := Option.some_injective _ hesc
  rw [hescq] at hstat hbm' htx hescs hbms hbal
  rw [hbm'] at hbm
  have hbmq : bm' = bm := Option.some_injective _ hbm
  rw [hbmq] at hbet' hbms hbal htx
  rw [hbet'] at hbet
  have hbetq : bet' = bet := Option.some_injective _ hbet
  rw [hbetq] at htx hbal
  have hhalf : esc.amount / 2 = bet.amount := by
    rw [hamt]; ring
  obtain ⟨hbc, hbt⟩ := hbal hct
  refine ⟨hstat, ?_, ?_, htx, by ring, ?_, ?_⟩
  · rw [hbc, hhalf]
  · rw [hbt, hhalf]
  · rw [hescs]
    exact afind_aset_self _ _ _ _ hesc'
  · rw [hbms]
    exact afind_aset_self _ _ _ _ hbm'

/-- Scenario D store: a disputed escrow of amount 200 (stakes 100/100)
between creator 10 and taker 20. -/
def scenarioDSt : St :=
  { wallets := [(10, { balance := 0, status := .active }),
                (20, { balance := 0, status := .active })],
    transactions := [],
    escrows := [(0, { bet_match_id := 2, amount := 200, platform_fee := 6,
                      status := .disputed, winner_id := none,
                      dispute_reason := some "d", resolved_by := none,
                      resolution_notes := none, released_at := false })],
    betMatches := [(2, { bet_id := 1, taker_id := 20, status := .disputed,
                         winner_id := none, escrow_created_at := true,
                         settled_at := false, cancelled_at := false })],
    bets := [(1, { creator_id := 10, amount := 100 })],
    payouts := [], nextEscrowId := 1 }

theorem resolveDispute_refund_correct_witness :
    walletBalance (resolveDispute scenarioDSt 0 none 1 "n").1 10 =
      walletBalance scenarioDSt 10 + 100 ∧
    walletBalance (resolveDispute scenarioDSt 0 none 1 "n").1 20 =
      walletBalance scenarioDSt 20 + 100 ∧
    (200 : ℚ) / 2 + 200 / 2 = 200 := by
  have h := resolveDispute_refund_correct scenarioDSt 0 1 "n"
    (resolveDispute scenarioDSt 0 none 1 "n").1 0
    { bet_match_id := 2, amount := 200, platform_fee := 6, status := .disputed,
      winner_id := none, dispute_reason := some "d", resolved_by := none,
      resolution_notes := none, released_at := false }
    { bet_id := 1, taker_id := 20, status := .disputed, winner_id := none,
      escrow_created_at := true, settled_at := false, cancelled_at := false }
    { creator_id := 10, amount := 100 }
    (by norm_num [resolveDispute, scenarioDSt, afind, aset, getWalletW, getWalletSt,
      updateBalance])
    (by simp [scenarioDSt, afind]) (by simp [scenarioDSt, afind])
    (by simp [scenarioDSt, afind]) (by norm_num) (by norm_num)
  exact ⟨h.2.1, h.2.2.1, h.2.2.2.2.1⟩

/-!  Claim C6: resolveDispute with a winner versus release.  -/

/-- C6: evaluation at the failing input.  resolveDispute on the disputed
Scenario D escrow accepts winner id 99 — a user who is neither the creator
(10) nor the taker (20) — lazily creates a wallet for 99, credits it with the
full 194 winnings and completes the escrow with winner 99; releaseEscrow,
which the specification says resolveDispute mirrors, rejects the same
winner id on an otherwise identical active escrow with the
winner-not-party error. -/
theorem resolveDispute_nonparty_evaluation :
    (resolveDispute scenarioDSt 0 (some 99) 1 "n").2 = Except.ok 0 ∧
    walletBalance (resolveDispute scenarioDSt 0 (some 99) 1 "n").1 99 = 194 ∧
    afind (resolveDispute scenarioDSt 0 (some 99) 1 "n").1.escrows 0 = some
      { bet_match_id := 2, amount := 200, platform_fee := 6, status := .completed,
        winner_id := some 99, dispute_reason := some "d", resolved_by := some 1,
        resolution_notes := some "n", released_at := true } ∧
    (releaseEscrow activeEscSt 0 99).2 = Except.error Err.winnerNotParty := by
  refine ⟨?_, ?_, ?_, ?_⟩ <;>
    norm_num [resolveDispute, releaseEscrow, scenarioDSt, activeEscSt, afind, aset,
      getWalletW, getWalletSt, updateBalance, walletBalance]


/-!  Claim C9: the escrow status state machine.  -/

/-- The legal escrow transitions: active to completed/disputed/refunded/
cancelled, and disputed to completed/refunded. -/
def EscrowTransitionAllowed (a b : EscrowStatus) : Prop :=
  (a = .active ∧ (b = .completed ∨ b = .disputed ∨ b = .refunded ∨ b = .cancelled)) ∨
  (a = .disputed ∧ (b = .completed ∨ b = .refunded))

/-- C9: along any sequence of escrow-engine operations every status change of
an escrow row follows the legal transition relation (an operation that cannot
make a legal transition is rejected and leaves the row unchanged), escrow-id
freshness is maintained step by step, and the betting service's settlement
only ever touches escrows in its `held` status, leaving every escrow in one
of the five enumerated statuses untouched. -/
theorem escrow_state_machine :
    (∀ st op eid e e',
      (∀ p ∈ st.escrows, p.1 < st.nextEscrowId) →
      afind st.escrows eid = some e →
      afind (stepOp st op).escrows eid = some e' →
      e' = e ∨ EscrowTransitionAllowed e.status e'.status) ∧
    (∀ st op, (∀ p ∈ st.escrows, p.1 < st.nextEscrowId) →
      ∀ p ∈ (stepOp st op).escrows, p.1 < (stepOp st op).nextEscrowId) ∧
    (∀ bst bmId res eid e,
      afind bst.escrows eid = some e →
      e.status ≠ EscrowStatus.held →
      afind (Betting.settleBet bst bmId res).1.escrows eid = some e) := by
  refine ⟨?_, ?_, ?_⟩
  · intro st op eid e e' hfresh he he'
    cases op with
    | createEscrow bmId =>
      have hstep : stepOp st (Op.createEscrow bmId) = (createEscrow st bmId).1 := rfl
      rw [hstep] at he'
      cases hres : createEscrow st bmId with
      | mk st1 res =>
        rw [hres] at he'
        cases res with
        | error err =>
          obtain ⟨-, hescs, -, -, -, -, -⟩ := createEscrow_error_unchanged st bmId st1 err hres
          rw [hescs, he] at he'
          exact Or.inl (Option.some_injective _ he').symm
        | ok eid0 =>
          obtain ⟨bm, bet, hbm, hbet, heid0, -, hescs, -, -, -, -⟩ :=
            createEscrow_ok_tables st bmId st1 eid0 hres
          rw [hescs] at he'
          unfold afind at he'
          by_cases hk : eid0 = eid
          · exfalso
            have hlt := hfresh (eid, e) (afind_some_mem _ _ _ he)
            rw [← hk, heid0] at hlt
            exact lt_irrefl _ hlt
          · rw [if_neg hk, he] at he'
            exact Or.inl (Option.some_injective _ he').symm
    | release eid0 wid =>
      have hstep : stepOp st (Op.release eid0 wid) = (releaseEscrow st eid0 wid).1 := rfl
      rw [hstep] at he'
      cases hres : releaseEscrow st eid0 wid with
      | mk st1 res =>
        rw [hres] at he'
        cases res with
        | error err =>
          obtain ⟨-, hescs, -, -, -, -, -⟩ := releaseEscrow_error_unchanged st eid0 wid st1 err hres
          rw [hescs, he] at he'
          exact Or.inl (Option.some_injective _ he').symm
        | ok r =>
          obtain ⟨esc, bm, bet, hesc, hstat, -, -, -, -, -, -, hescs, -, -, -, -, -⟩ :=
            releaseEscrow_ok_tables st eid0 wid st1 r hres
          rw [hescs] at he'
          rcases afind_aset_or _ _ _ _ _ he' with ⟨hk, hv⟩ | hold
          · subst hk
            rw [hesc] at he
            have heq : esc = e := Option.some_injective _ he
            rw [heq] at hstat hv
            refine Or.inr (Or.inl ⟨hstat, Or.inl ?_⟩)
            rw [hv]
          · rw [he] at hold
            exact Or.inl (Option.some_injective _ hold).symm
    | openDispute eid0 uid reason =>
      have hstep : stepOp st (Op.openDispute eid0 uid reason) =
        (createDispute st eid0 uid reason).1 := rfl
      rw [hstep] at he'
      cases hres : createDispute st eid0 uid reason with
      | mk st1 res =>
        rw [hres] at he'
        cases res with
        | error err =>
          obtain ⟨-, hescs, -, -, -, -, -⟩ :=
            createDispute_error_unchanged st eid0 uid reason st1 err hres
          rw [hescs, he] at he'
          exact Or.inl (Option.some_injective _ he').symm
        | ok r =>
          obtain ⟨esc, bm, bet, hesc, hstat, -, -, -, -, -, -, hescs, -, -, -, -⟩ :=
            createDispute_ok_tables st eid0 uid reason st1 r hres
          rw [hescs] at he'
          rcases afind_aset_or _ _ _ _ _ he' with ⟨hk, hv⟩ | hold
          · subst hk
            rw [hesc] at he
            have heq : esc = e := Option.some_injective _ he
            rw [heq] at hstat hv
            refine Or.inr (Or.inl ⟨hstat, Or.inr (Or.inl ?_)⟩)
            rw [hv]
          · rw [he] at hold
            exact Or.inl (Option.some_injective _ hold).symm
    | resolveDispute eid0 w a n =>
      have hstep : stepOp st (Op.resolveDispute eid0 w a n) =
        (resolveDispute st eid0 w a n).1 := rfl
      rw [hstep] at he'
      cases hres : resolveDispute st eid0 w a n with
      | mk st1 res =>
        rw [hres] at he'
        cases res with
        | error err =>
          obtain ⟨-, hescs, -, -, -, -, -⟩ :=
            resolveDispute_error_unchanged st eid0 w a n st1 err hres
          rw [hescs, he] at he'
          exact Or.inl (Option.some_injective _ he').symm
        | ok r =>
          cases w with
          | some winner =>
            obtain ⟨esc, bm, bet, hesc, hstat, -, -, -, -, -, hescs, -, -, -, -, -⟩ :=
              resolveDispute_winner_tables st eid0 winner a n st1 r hres
            rw [hescs] at he'
            rcases afind_aset_or _ _ _ _ _ he' with ⟨hk, hv⟩ | hold
            · subst hk
              rw [hesc] at he
              have heq : esc = e := Option.some_injective _ he
              rw [heq] at hstat hv
              refine Or.inr (Or.inr ⟨hstat, Or.inl ?_⟩)
              rw [hv]
            · rw [he] at hold
              exact Or.inl (Option.some_injective _ hold).symm
          | none =>
            obtain ⟨esc, bm, bet, hesc, hstat, -, -, -, -, -, hescs, -, -, -, -, -⟩ :=
              resolveDispute_refund_tables st eid0 a n st1 r hres
            rw [hescs] at he'
            rcases afind_aset_or _ _ _ _ _ he' with ⟨hk, hv⟩ | hold
            · subst hk
              rw [hesc] at he
              have heq : esc = e := Option.some_injective _ he
              rw [heq] at hstat hv
              refine Or.inr (Or.inr ⟨hstat, Or.inr ?_⟩)
              rw [hv]
            · rw [he] at hold
              exact Or.inl (Option.some_injective _ hold).symm
  · intro st op hfresh p hp
    cases op with
    | createEscrow bmId =>
      have hstep : stepOp st (Op.createEscrow bmId) = (createEscrow st bmId).1 := rfl
      rw [hstep] at hp ⊢
      cases hres : createEscrow st bmId with
      | mk st1 res =>
        rw [hres] at hp
        have hp' : p ∈ st1.escrows := hp
        show p.1 < st1.nextEscrowId
        cases res with
        | error err =>
          obtain ⟨-, hescs, -, -, -, hnext, -⟩ := createEscrow_error_unchanged st bmId st1 err hres
          rw [hescs] at hp'
          rw [hnext]
          exact hfresh p hp'
        | ok eid0 =>
          obtain ⟨bm, bet, hbm, hbet, heid0, -, hescs, -, -, hnext, -⟩ :=
            createEscrow_ok_tables st bmId st1 eid0 hres
          rw [hescs] at hp'
          rw [hnext]
          rcases List.mem_cons.mp hp' with hq | hq
          · rw [hq]
            rw [heid0]
            exact Nat.lt_succ_self _
          · exact Nat.lt_succ_of_lt (hfresh p hq)
    | release eid0 wid =>
      have hstep : stepOp st (Op.release eid0 wid) = (releaseEscrow st eid0 wid).1 := rfl
      rw [hstep] at hp ⊢
      cases hres : releaseEscrow st eid0 wid with
      | mk st1 res =>
        rw [hres] at hp
        have hp' : p ∈ st1.escrows := hp
        show p.1 < st1.nextEscrowId
        cases res with
        | error err =>
          obtain ⟨-, hescs, -, -, -, hnext, -⟩ := releaseEscrow_error_unchanged st eid0 wid st1 err hres
          rw [hescs] at hp'
          rw [hnext]
          exact hfresh p hp'
        | ok r =>
          obtain ⟨esc, bm, bet, hesc, -, -, -, -, -, -, -, hescs, -, -, hnext, -, -⟩ :=
            releaseEscrow_ok_tables st eid0 wid st1 r hres
          rw [hescs] at hp'
          rw [hnext]
          rcases mem_aset _ _ _ _ hp' with hq | hq
          · rw [hq]
            exact hfresh (eid0, esc) (afind_some_mem _ _ _ hesc)
          · exact hfresh p hq
    | openDispute eid0 uid reason =>
      have hstep : stepOp st (Op.openDispute eid0 uid reason) =
        (createDispute st eid0 uid reason).1 := rfl
      rw [hstep] at hp ⊢
      cases hres : createDispute st eid0 uid reason with
      | mk st1 res =>
        rw [hres] at hp
        have hp' : p ∈ st1.escrows := hp
        show p.1 < st1.nextEscrowId
        cases res with
        | error err =>
          obtain ⟨-, hescs, -, -, -, hnext, -⟩ :=
            createDispute_error_unchanged st eid0 uid reason st1 err hres
          rw [hescs] at hp'
          rw [hnext]
          exact hfresh p hp'
        | ok r =>
          obtain ⟨esc, bm, bet, hesc, -, -, -, -, -, -, -, hescs, -, -, hnext, -⟩ :=
            createDispute_ok_tables st eid0 uid reason st1 r hres
          rw [hescs] at hp'
          rw [hnext]
          rcases mem_aset _ _ _ _ hp' with hq | hq
          · rw [hq]
            exact hfresh (eid0, esc) (afind_some_mem _ _ _ hesc)
          · exact hfresh p hq
    | resolveDispute eid0 w a n =>
      have hstep : stepOp st (Op.resolveDispute eid0 w a n) =
        (resolveDispute st eid0 w a n).1 := rfl
      rw [hstep] at hp ⊢
      cases hres : resolveDispute st eid0 w a n with
      | mk st1 res =>
        rw [hres] at hp
        have hp' : p ∈ st1.escrows := hp
        show p.1 < st1.nextEscrowId
        cases res with
        | error err =>
          obtain ⟨-, hescs, -, -, -, hnext, -⟩ :=
            resolveDispute_error_unchanged st eid0 w a n st1 err hres
          rw [hescs] at hp'
          rw [hnext]
          exact hfresh p hp'
        | ok r =>
          cases w with
          | some winner =>
            obtain ⟨esc, bm, bet, hesc, -, -, -, -, -, -, hescs, -, -, hnext, -, -⟩ :=
              resolveDispute_winner_tables st eid0 winner a n st1 r hres
            rw [hescs] at hp'
            rw [hnext]
            rcases mem_aset _ _ _ _ hp' with hq | hq
            · rw [hq]
              exact hfresh (eid0, esc) (afind_some_mem _ _ _ hesc)
            · exact hfresh p hq
          | none =>
            obtain ⟨esc, bm, bet, hesc, -, -, -, -, -, -, hescs, -, -, hnext, -, -⟩ :=
              resolveDispute_refund_tables st eid0 a n st1 r hres
            rw [hescs] at hp'
            rw [hnext]
            rcases mem_aset _ _ _ _ hp' with hq | hq
            · rw [hq]
              exact hfresh (eid0, esc) (afind_some_mem _ _ _ hesc)
            · exact hfresh p hq
  · intro bst bmId res eid e he hneq
    unfold Betting.settleBet
    split
    · exact he
    · rename_i bm hbm
      split
      · exact he
      · split
        · exact he
        · rename_i escrow hescrow
          split
          · exact he
          · rename_i hheld
            split
            · exact he
            · split
              · exact he
              · split
                · exact he
                · rename_i winnerWallet hww
                  dsimp only
                  have hheld' : escrow.status = EscrowStatus.held := by
                    by_contra hne
                    exact hheld hne
                  have hne : eid ≠ bm.escrow_id := by
                    intro hk
                    rw [hk, hescrow] at he
                    rw [← Option.some_injective _ he, hheld'] at hneq
                    exact hneq rfl
                  rw [afind_aset_ne _ _ _ _ hne]
                  exact he


/-- A betting store holding one already-released escrow row. -/
def settledBetSt : Betting.BState :=
  { wallets := [], events := [], bets := [], betMatches := [],
    escrows := [(0, { creator_amount := 1, taker_amount := 1, platform_fee := 0,
                      status := .released, winner_id := none, bet_match_id := none,
                      released_at := true })],
    transactions := [], now := 0, nextId := 1 }

theorem escrow_state_machine_witness :
    (({ bet_match_id := 2, amount := 200, platform_fee := 6,
        status := EscrowStatus.completed, winner_id := some 10,
        dispute_reason := none, resolved_by := none, resolution_notes := none,
        released_at := true } : Escrow) =
      { bet_match_id := 2, amount := 200, platform_fee := 6,
        status := EscrowStatus.active, winner_id := none, dispute_reason := none,
        resolved_by := none, resolution_notes := none, released_at := false } ∨
      EscrowTransitionAllowed
        ({ bet_match_id := 2, amount := 200, platform_fee := 6,
           status := EscrowStatus.active, winner_id := none, dispute_reason := none,
           resolved_by := none, resolution_notes := none,
           released_at := false } : Escrow).status
        ({ bet_match_id := 2, amount := 200, platform_fee := 6,
           status := EscrowStatus.completed, winner_id := some 10,
           dispute_reason := none, resolved_by := none, resolution_notes := none,
           released_at := true } : Escrow).status) ∧
    afind (Betting.settleBet settledBetSt 9 { home_score := 1, away_score := 1 }).1.escrows 0 =
      some { creator_amount := 1, taker_amount := 1, platform_fee := 0,
             status := .released, winner_id := none, bet_match_id := none,
             released_at := true } := by
  constructor
  · exact escrow_state_machine.1 activeEscSt (Op.release 0 10) 0
      { bet_match_id := 2, amount := 200, platform_fee := 6,
        status := EscrowStatus.active, winner_id := none, dispute_reason := none,
        resolved_by := none, resolution_notes := none, released_at := false }
      { bet_match_id := 2, amount := 200, platform_fee := 6,
        status := EscrowStatus.completed, winner_id := some 10,
        dispute_reason := none, resolved_by := none, resolution_notes := none,
        released_at := true }
      (by intro p hp
          simp [activeEscSt] at hp
          rw [hp]
          norm_num [activeEscSt])
      (by simp [activeEscSt, afind])
      (by norm_num [stepOp, releaseEscrow, activeEscSt, afind, aset, getWalletW,
        getWalletSt, updateBalance])
  · exact escrow_state_machine.2.2 settledBetSt 9 { home_score := 1, away_score := 1 } 0
      { creator_amount := 1, taker_amount := 1, platform_fee := 0,
        status := .released, winner_id := none, bet_match_id := none,
        released_at := true }
      (by simp [settledBetSt, afind]) (by simp)


/-!  Claim C1: conservation of escrow value.  -/

/-- The credit total the recorded ledger shows for an escrow in each status:
nothing while active or disputed, `amount - platform_fee` once completed (the
single win credit; no fee-credit transaction is ever recorded), and the full
amount once refunded. -/
def escrowCreditsExpected (e : Escrow) : ℚ :=
  match e.status with
  | .completed => e.amount - e.platform_fee
  | .refunded => e.amount
  | _ => 0

/-- Ledger invariant tying every escrow row to the transactions that fund and
drain it: references stay below the id supply, bet stakes are two-decimal
values, the recorded debits into each escrow equal its amount, and the
recorded credits match its status. -/
def LedgerInv (st : St) : Prop :=
  (∀ t ∈ st.transactions, t.reference_id < st.nextEscrowId) ∧
  (∀ p ∈ st.escrows, p.1 < st.nextEscrowId) ∧
  (∀ k b, afind st.bets k = some b → Is2dp b.amount) ∧
  (∀ eid e, afind st.escrows eid = some e →
    escrowDebits st eid = e.amount ∧
    escrowCredits st eid = escrowCreditsExpected e ∧
    (e.status = EscrowStatus.active ∨ e.status = EscrowStatus.completed ∨
     e.status = EscrowStatus.disputed ∨ e.status = EscrowStatus.refunded))

theorem LedgerInv_congr (st st' : St) (htx : st'.transactions = st.transactions)
    (hes : st'.escrows = st.escrows) (hb : st'.bets = st.bets)
    (hn : st'.nextEscrowId = st.nextEscrowId) (h : LedgerInv st) : LedgerInv st' := by
  obtain ⟨h1, h2, h3, h4⟩ := h
  refine ⟨?_, ?_, ?_, ?_⟩
  · rw [htx, hn]; exact h1
  · rw [hes, hn]; exact h2
  · rw [hb]; exact h3
  · intro eid e he
    rw [hes] at he
    obtain ⟨d, c, hstatus⟩ := h4 eid e he
    refine ⟨?_, ?_, hstatus⟩
    · unfold escrowDebits; rw [htx]; exact d
    · unfold escrowCredits; rw [htx]; exact c

theorem txDebits_pair_bet (u1 u2 : Nat) (a : ℚ) (eid : Nat) (r1 r2 : Option Role) :
    txDebits [{ wallet_id := u1, amount := -a, type := .bet, status := .completed,
                reference_id := eid, role := r1 },
              { wallet_id := u2, amount := -a, type := .bet, status := .completed,
                reference_id := eid, role := r2 }] eid = a + a := by
  simp [txDebits]

theorem txCredits_pair_bet (u1 u2 : Nat) (a : ℚ) (eid : Nat) (r1 r2 : Option Role) :
    txCredits [{ wallet_id := u1, amount := -a, type := .bet, status := .completed,
                 reference_id := eid, role := r1 },
               { wallet_id := u2, amount := -a, type := .bet, status := .completed,
                 reference_id := eid, role := r2 }] eid = 0 := by
  simp [txCredits]

theorem txDebits_single_win (u : Nat) (a : ℚ) (eid : Nat) :
    txDebits [{ wallet_id := u, amount := a, type := .win, status := .completed,
                reference_id := eid, role := none }] eid = 0 := by
  simp [txDebits]

theorem txCredits_single_win (u : Nat) (a : ℚ) (eid : Nat) :
    txCredits [{ wallet_id := u, amount := a, type := .win, status := .completed,
                 reference_id := eid, role := none }] eid = a := by
  simp [txCredits]

theorem txDebits_pair_refund (u1 u2 : Nat) (a : ℚ) (eid : Nat) (r1 r2 : Option Role) :
    txDebits [{ wallet_id := u1, amount := a, type := .refund, status := .completed,
                reference_id := eid, role := r1 },
              { wallet_id := u2, amount := a, type := .refund, status := .completed,
                reference_id := eid, role := r2 }] eid = 0 := by
  simp [txDebits]

theorem txCredits_pair_refund (u1 u2 : Nat) (a : ℚ) (eid : Nat) (r1 r2 : Option Role) :
    txCredits [{ wallet_id := u1, amount := a, type := .refund, status := .completed,
                 reference_id := eid, role := r1 },
               { wallet_id := u2, amount := a, type := .refund, status := .completed,
                 reference_id := eid, role := r2 }] eid = a + a := by
  simp [txCredits]


theorem afind_aset_cases {α : Type} (l : List (Nat × α)) (k k' : Nat) (v : α) (w : α)
    (h : afind (aset l k v) k' = some w) :
    (k' = k ∧ w = v) ∨ (k' ≠ k ∧ afind l k' = some w) := by
  by_cases hk : k' = k
  · subst hk
    cases hfound : afind l k' with
    | none =>
      rw [aset_of_afind_none l k' v hfound, hfound] at h
      exact Option.noConfusion h
    | some u =>
      rw [afind_aset_self l k' v u hfound] at h
      exact Or.inl ⟨rfl, (Option.some_injective _ h).symm⟩
  · rw [afind_aset_ne l k k' v hk] at h
    exact Or.inr ⟨hk, h⟩

/-- Preservation of the ledger invariant under an operation that appends the
transactions `L` (all tagged with `eid0`) and rewrites the single escrow row
`eid0` from `esc` to `row'` without touching its amount. -/
theorem ledgerInv_aset_shape (st st1 : St) (eid0 : Nat) (esc row' : Escrow)
    (L : List Txn) (h : LedgerInv st)
    (hesc : afind st.escrows eid0 = some esc)
    (htx : st1.transactions = st.transactions ++ L)
    (hes : st1.escrows = aset st.escrows eid0 row')
    (hb : st1.bets = st.bets)
    (hn : st1.nextEscrowId = st.nextEscrowId)
    (hrefs : ∀ t ∈ L, t.reference_id = eid0)
    (hLdeb : txDebits L eid0 = 0)
    (hLcr : txCredits L eid0 = escrowCreditsExpected row' - escrowCreditsExpected esc)
    (hamt : row'.amount = esc.amount)
    (hstatus : row'.status = EscrowStatus.active ∨ row'.status = EscrowStatus.completed ∨
      row'.status = EscrowStatus.disputed ∨ row'.status = EscrowStatus.refunded) :
    LedgerInv st1 := by
  obtain ⟨hT, hE, hB, hS⟩ := h
  have heid0lt : eid0 < st.nextEscrowId := hE (eid0, esc) (afind_some_mem _ _ _ hesc)
  refine ⟨?_, ?_, ?_, ?_⟩
  · intro t ht
    rw [htx] at ht
    rw [hn]
    rcases List.mem_append.mp ht with ht | ht
    · exact hT t ht
    · rw [hrefs t ht]
      exact heid0lt
  · intro p hp
    rw [hes] at hp
    rw [hn]
    rcases mem_aset _ _ _ _ hp with hp | hp
    · rw [hp]
      exact heid0lt
    · exact hE p hp
  · rw [hb]
    exact hB
  · intro eid e he
    rw [hes] at he
    rcases afind_aset_cases _ _ _ _ _ he with ⟨hk, hv⟩ | ⟨hne, hold⟩
    · subst hk
      obtain ⟨hdeb0, hcr0, -⟩ := hS eid esc hesc
      refine ⟨?_, ?_, ?_⟩
      · unfold escrowDebits
        rw [htx, txDebits_append]
        unfold escrowDebits at hdeb0
        rw [hdeb0, hLdeb, hv, hamt, add_zero]
      · unfold escrowCredits
        rw [htx, txCredits_append]
        unfold escrowCredits at hcr0
        rw [hcr0, hLcr, hv]
        ring
      · rw [hv]
        exact hstatus
    · obtain ⟨hdeb0, hcr0, hstat0⟩ := hS eid e hold
      have hfreshL : ∀ t ∈ L, t.reference_id ≠ eid := by
        intro t ht
        rw [hrefs t ht]
        exact Ne.symm hne
      refine ⟨?_, ?_, hstat0⟩
      · unfold escrowDebits
        rw [htx, txDebits_append, txDebits_zero_of_fresh L eid hfreshL]
        unfold escrowDebits at hdeb0
        rw [hdeb0, add_zero]
      · unfold escrowCredits
        rw [htx, txCredits_append, txCredits_zero_of_fresh L eid hfreshL]
        unfold escrowCredits at hcr0
        rw [hcr0, add_zero]


theorem txDebits_single_ne (t : Txn) (k : Nat) (h : t.reference_id ≠ k) :
    txDebits [t] k = 0 := by
  simp [txDebits, h]

theorem txCredits_single_ne (t : Txn) (k : Nat) (h : t.reference_id ≠ k) :
    txCredits [t] k = 0 := by
  simp [txCredits, h]

theorem txDebits_pair_ne (t1 t2 : Txn) (k : Nat) (h1 : t1.reference_id ≠ k)
    (h2 : t2.reference_id ≠ k) : txDebits [t1, t2] k = 0 := by
  simp [txDebits, h1, h2]

theorem txCredits_pair_ne (t1 t2 : Txn) (k : Nat) (h1 : t1.reference_id ≠ k)
    (h2 : t2.reference_id ≠ k) : txCredits [t1, t2] k = 0 := by
  simp [txCredits, h1, h2]

theorem stepOp_LedgerInv (st : St) (op : Op) (h : LedgerInv st) :
    LedgerInv (stepOp st op) := by
  cases op with
  | createEscrow bmId =>
    have hstep : stepOp st (Op.createEscrow bmId) = (createEscrow st bmId).1 := rfl
    rw [hstep]
    cases hres : createEscrow st bmId with
    | mk st1 res =>
      show LedgerInv st1
      cases res with
      | error err =>
        obtain ⟨htx, hes, -, hb, -, hn, -⟩ := createEscrow_error_unchanged st bmId st1 err hres
        exact LedgerInv_congr st st1 htx hes hb hn h
      | ok eid0 =>
        obtain ⟨bm, bet, hbm, hbet, heid0, htx, hes, hb, -, hn, -⟩ :=
          createEscrow_ok_tables st bmId st1 eid0 hres
        obtain ⟨hT, hE, hB, hS⟩ := h
        have h2dp : Is2dp bet.amount := hB bm.bet_id bet hbet
        have hround : round2 (bet.amount * 2) = bet.amount * 2 :=
          round2_of_Is2dp (by rw [mul_comm]; exact Is2dp_two_mul h2dp)
        refine ⟨?_, ?_, ?_, ?_⟩
        · intro t ht
          rw [htx] at ht
          rw [hn]
          rcases List.mem_append.mp ht with ht | ht
          · exact Nat.lt_succ_of_lt (hT t ht)
          · simp only [List.mem_cons, List.not_mem_nil, or_false] at ht
            rcases ht with rfl | rfl <;>
              (show eid0 < st.nextEscrowId + 1
               rw [heid0]
               exact Nat.lt_succ_self _)
        · intro p hp
          rw [hes] at hp
          rw [hn]
          rcases List.mem_cons.mp hp with hp | hp
          · rw [hp, heid0]
            exact Nat.lt_succ_self _
          · exact Nat.lt_succ_of_lt (hE p hp)
        · rw [hb]
          exact hB
        · intro eid e he
          rw [hes] at he
          unfold afind at he
          by_cases hk : eid0 = eid
          · rw [if_pos hk] at he
            have hv := (Option.some_injective _ he).symm
            subst hk
            refine ⟨?_, ?_, ?_⟩
            · unfold escrowDebits
              rw [htx, txDebits_append, txDebits_zero_of_fresh st.transactions eid0
                (by intro t ht; rw [heid0]; exact Nat.ne_of_lt (hT t ht)),
                txDebits_pair_bet, hv]
              show 0 + (bet.amount + bet.amount) = round2 (bet.amount * 2)
              rw [hround]
              ring
            · unfold escrowCredits
              rw [htx, txCredits_append, txCredits_zero_of_fresh st.transactions eid0
                (by intro t ht; rw [heid0]; exact Nat.ne_of_lt (hT t ht)),
                txCredits_pair_bet, hv]
              simp [escrowCreditsExpected]
            · rw [hv]
              exact Or.inl rfl
          · rw [if_neg hk] at he
            obtain ⟨hdeb0, hcr0, hstat0⟩ := hS eid e he
            have hne : eid0 ≠ eid := hk
            refine ⟨?_, ?_, hstat0⟩
            · unfold escrowDebits
              rw [htx, txDebits_append, txDebits_pair_ne _ _ _ hne hne]
              unfold escrowDebits at hdeb0
              rw [hdeb0, add_zero]
            · unfold escrowCredits
              rw [htx, txCredits_append, txCredits_pair_ne _ _ _ hne hne]
              unfold escrowCredits at hcr0
              rw [hcr0, add_zero]
  | release eid0 wid =>
    have hstep : stepOp st (Op.release eid0 wid) = (releaseEscrow st eid0 wid).1 := rfl
    rw [hstep]
    cases hres : releaseEscrow st eid0 wid with
    | mk st1 res =>
      show LedgerInv st1
      cases res with
      | error err =>
        obtain ⟨htx, hes, -, hb, -, hn, -⟩ := releaseEscrow_error_unchanged st eid0 wid st1 err hres
        exact LedgerInv_congr st st1 htx hes hb hn h
      | ok r =>
        obtain ⟨esc, bm, bet, hesc, hstat, -, -, -, -, htx, -, hescs, -, hbets, hnext, -, -⟩ :=
          releaseEscrow_ok_tables st eid0 wid st1 r hres
        refine ledgerInv_aset_shape st st1 eid0 esc _ _ h hesc htx hescs hbets hnext
          ?_ ?_ ?_ rfl (Or.inr (Or.inl rfl))
        · intro t ht
          simp only [List.mem_cons, List.not_mem_nil, or_false] at ht
          rw [ht]
        · exact txDebits_single_win _ _ _
        · rw [txCredits_single_win]
          simp only [escrowCreditsExpected, hstat]
          ring
  | openDispute eid0 uid reason =>
    have hstep : stepOp st (Op.openDispute eid0 uid reason) =
      (createDispute st eid0 uid reason).1 := rfl
    rw [hstep]
    cases hres : createDispute st eid0 uid reason with
    | mk st1 res =>
      show LedgerInv st1
      cases res with
      | error err =>
        obtain ⟨htx, hes, -, hb, -, hn, -⟩ :=
          createDispute_error_unchanged st eid0 uid reason st1 err hres
        exact LedgerInv_congr st st1 htx hes hb hn h
      | ok r =>
        obtain ⟨esc, bm, bet, hesc, hstat, -, -, -, -, htx, -, hescs, -, hbets, hnext, -⟩ :=
          createDispute_ok_tables st eid0 uid reason st1 r hres
        refine ledgerInv_aset_shape st st1 eid0 esc _ [] h hesc
          (by rw [htx, List.append_nil]) hescs hbets hnext
          (by intro t ht; simp at ht) rfl ?_ rfl
          (Or.inr (Or.inr (Or.inl rfl)))
        simp only [escrowCreditsExpected, hstat]
        simp [txCredits]
  | resolveDispute eid0 w a n =>
    have hstep : stepOp st (Op.resolveDispute eid0 w a n) =
      (resolveDispute st eid0 w a n).1 := rfl
    rw [hstep]
    cases hres : resolveDispute st eid0 w a n with
    | mk st1 res =>
      show LedgerInv st1
      cases res with
      | error err =>
        obtain ⟨htx, hes, -, hb, -, hn, -⟩ :=
          resolveDispute_error_unchanged st eid0 w a n st1 err hres
        exact LedgerInv_congr st st1 htx hes hb hn h
      | ok r =>
        cases w with
        | some winner =>
          obtain ⟨esc, bm, bet, hesc, hstat, -, -, -, htx, -, hescs, -, hbets, hnext, -, -⟩ :=
            resolveDispute_winner_tables st eid0 winner a n st1 r hres
          refine ledgerInv_aset_shape st st1 eid0 esc _ _ h hesc htx hescs hbets hnext
            ?_ ?_ ?_ rfl (Or.inr (Or.inl rfl))
          · intro t ht
            simp only [List.mem_cons, List.not_mem_nil, or_false] at ht
            rw [ht]
          · exact txDebits_single_win _ _ _
          · rw [txCredits_single_win]
            simp only [escrowCreditsExpected, hstat]
            ring
        | none =>
          obtain ⟨esc, bm, bet, hesc, hstat, -, -, -, htx, -, hescs, -, hbets, hnext, -, -⟩ :=
            resolveDispute_refund_tables st eid0 a n st1 r hres
          refine ledgerInv_aset_shape st st1 eid0 esc _ _ h hesc htx hescs hbets hnext
            ?_ ?_ ?_ rfl (Or.inr (Or.inr (Or.inr rfl)))
          · intro t ht
            simp only [List.mem_cons, List.not_mem_nil, or_false] at ht
            rcases ht with rfl | rfl <;> rfl
          · exact txDebits_pair_refund _ _ _ _ _ _
          · rw [txCredits_pair_refund]
            simp only [escrowCreditsExpected, hstat]
            ring


/-- Whole-run form of the ledger invariant: `runOps` preserves `LedgerInv`. -/
theorem runOps_LedgerInv (st : St) (ops : List Op) (h : LedgerInv st) :
    LedgerInv (runOps st ops) := by
  induction ops generalizing st with
  | nil => exact h
  | cons op rest ih =>
    show LedgerInv (runOps (stepOp st op) rest)
    exact ih (stepOp st op) (stepOp_LedgerInv st op h)

/-- C1 counterexample: funding the scenario-A escrow and releasing it to the
creator records 200 of debits into the escrow but only 194 of credits out of
it once it is terminal (completed): the 6 platform fee is retained without
any credit transaction, so the claimed equality of debits and credits fails
on completed escrows. -/
theorem escrow_conservation_counterexample :
    afind (runOps scenarioASt [Op.createEscrow 2, Op.release 0 10]).escrows 0
      = some { bet_match_id := 2, amount := 200, platform_fee := 6,
               status := .completed, winner_id := some 10, dispute_reason := none,
               resolved_by := none, resolution_notes := none, released_at := true } ∧
    escrowDebits (runOps scenarioASt [Op.createEscrow 2, Op.release 0 10]) 0 = 200 ∧
    escrowCredits (runOps scenarioASt [Op.createEscrow 2, Op.release 0 10]) 0 = 194 ∧
    (194 : ℚ) ≠ 200 := by
  refine ⟨?_, ?_, ?_, by norm_num⟩
  · norm_num [runOps, stepOp, createEscrow, releaseEscrow, scenarioASt, afind, aset,
      getWalletW, getWalletSt, updateBalance, round2, PLATFORM_FEE_PERCENT, round_eq]
  · norm_num [runOps, stepOp, createEscrow, releaseEscrow, scenarioASt, afind, aset,
      getWalletW, getWalletSt, updateBalance, round2, PLATFORM_FEE_PERCENT, round_eq,
      escrowDebits, escrowCredits, txDebits, txCredits]
    simp
    norm_num
  · norm_num [runOps, stepOp, createEscrow, releaseEscrow, scenarioASt, afind, aset,
      getWalletW, getWalletSt, updateBalance, round2, PLATFORM_FEE_PERCENT, round_eq,
      escrowDebits, escrowCredits, txDebits, txCredits]
    simp

/-- C1 (amended): conservation holds with the retained fee made explicit.
From any state satisfying the ledger invariant, after any sequence of
create/release/dispute/resolve escrow operations, every refunded escrow has
credits out equal to the debits in, while every completed escrow has credits
out plus its stored platform fee equal to the debits in: the fee stays with
the platform and no fee-credit transaction is ever recorded. -/
theorem escrow_conservation_amended (st : St) (ops : List Op) (h : LedgerInv st)
    (eid : Nat) (e : Escrow)
    (he : afind (runOps st ops).escrows eid = some e) :
    (e.status = EscrowStatus.refunded →
      escrowCredits (runOps st ops) eid = escrowDebits (runOps st ops) eid) ∧
    (e.status = EscrowStatus.completed →
      escrowCredits (runOps st ops) eid + e.platform_fee
        = escrowDebits (runOps st ops) eid) := by
  obtain ⟨-, -, -, h4⟩ := runOps_LedgerInv st ops h
  obtain ⟨hdeb, hcr, -⟩ := h4 eid e he
  constructor
  · intro hst
    rw [hcr, hdeb]
    simp only [escrowCreditsExpected, hst]
  · intro hst
    rw [hcr, hdeb]
    simp only [escrowCreditsExpected, hst]
    ring

/-- The amended conservation law applied to a concrete run: scenario A funded
and released, whose completed escrow balances once the stored 6 fee is
added back to the 194 of credits. -/
theorem escrow_conservation_amended_witness :
    LedgerInv scenarioASt ∧
    afind (runOps scenarioASt [Op.createEscrow 2, Op.release 0 10]).escrows 0
      = some { bet_match_id := 2, amount := 200, platform_fee := 6,
               status := .completed, winner_id := some 10, dispute_reason := none,
               resolved_by := none, resolution_notes := none, released_at := true } ∧
    escrowCredits (runOps scenarioASt [Op.createEscrow 2, Op.release 0 10]) 0 + 6
      = escrowDebits (runOps scenarioASt [Op.createEscrow 2, Op.release 0 10]) 0 := by
  have hinv : LedgerInv scenarioASt := by
    refine ⟨?_, ?_, ?_, ?_⟩
    · intro t ht
      simp [scenarioASt] at ht
    · intro p hp
      simp [scenarioASt] at hp
    · intro k b hb
      simp only [scenarioASt, afind] at hb
      split at hb
      · cases hb
        exact ⟨10000, by norm_num⟩
      · simp [afind] at hb
    · intro eid e he
      simp [scenarioASt, afind] at he
  have hfind : afind (runOps scenarioASt [Op.createEscrow 2, Op.release 0 10]).escrows 0
      = some { bet_match_id := 2, amount := 200, platform_fee := 6,
               status := .completed, winner_id := some 10, dispute_reason := none,
               resolved_by := none, resolution_notes := none, released_at := true } := by
    norm_num [runOps, stepOp, createEscrow, releaseEscrow, scenarioASt, afind, aset,
      getWalletW, getWalletSt, updateBalance, round2, PLATFORM_FEE_PERCENT, round_eq]
  exact ⟨hinv, hfind,
    (escrow_conservation_amended scenarioASt [Op.createEscrow 2, Op.release 0 10]
      hinv 0 _ hfind).2 rfl⟩

end PlayChaCha

